import Mathlib

/-!
Shallow embedding of the core of the `akari` invariant/causality engine
(Go sources: `internal/dsl` types, `internal/dsl/invariants` MVP set,
`internal/authority` controller authority map, `internal/state` memory
store, and the evaluation engine in package `engine`).

Modelling conventions:
* Go `interface{}` field values are modelled by the inductive `GoValue`,
  following the value grammar actually used by the engine
  (`nil`, `bool`, `string`, `int`/`int32`/`int64`, `float32`/`float64`,
  `[]interface{}`).  Floating point numbers are modelled as exact
  rationals: the engine only ever compares them, never does arithmetic
  on them, so no claim depends on rounding.
* Go map contents are modelled as association lists with unique keys,
  kept in insertion order as a canonical representation.  Where Go
  `range`s over a map (an unspecified iteration order), the model takes
  the iteration order as an explicit parameter `ord`, constrained in the
  theorems to be some permutation of the map's entries.
* A Go run-time panic (comparing two uncomparable `[]interface{}`
  values) is modelled by `Except.error .comparingUncomparableType`; the
  unbounded recursion of dependency evaluation is made total with a
  fuel parameter, `Except.error .outOfFuel` standing for a recursion
  deeper than the fuel.
* `time.Now()` / `time.Since` values recorded into `EvaluationLogEntry`
  and the always-`nil` error of `MemoryStore.Record` are not observable
  by any property considered here; clock fields are modelled as `0`.
-/

namespace Akari

/-- The run-time abnormal outcomes of the embedded Go code: a panic from
comparing two values of the same uncomparable dynamic type
(`[]interface{}`), or exhaustion of the recursion fuel that makes the
dependency recursion total. -/
inductive Abn where
  | comparingUncomparableType
  | outOfFuel
  deriving DecidableEq, Repr

/-- A Go `interface{}` value as used in `FieldDiff` and `Predicate.Value`:
`nil`, `bool`, `string`, the integer types the engine inspects
(`int`, `int32`, `int64`), the float types (`float32`, `float64`,
modelled as exact rationals), and `[]interface{}`. -/
inductive GoValue where
  | vnull
  | vbool (b : Bool)
  | vstr (s : String)
  | vint (n : Int)
  | vint32 (n : Int)
  | vint64 (n : Int)
  | vfloat32 (q : ℚ)
  | vfloat64 (q : ℚ)
  | varr (xs : List GoValue)

/-- Go `==` / `!=` on two `interface{}` values: equal iff the dynamic
types are identical and the payloads are equal; different dynamic types
compare unequal; two values of the same uncomparable dynamic type
(`[]interface{}`, i.e. `varr`) PANIC at run time
("comparing uncomparable type"). -/
def goEq : GoValue → GoValue → Except Abn Bool
  | .varr _, .varr _ => .error .comparingUncomparableType
  | .vnull, .vnull => .ok true
  | .vbool a, .vbool b => .ok (a == b)
  | .vstr a, .vstr b => .ok (a == b)
  | .vint a, .vint b => .ok (a == b)
  | .vint32 a, .vint32 b => .ok (a == b)
  | .vint64 a, .vint64 b => .ok (a == b)
  | .vfloat32 a, .vfloat32 b => .ok (a == b)
  | .vfloat64 a, .vfloat64 b => .ok (a == b)
  | _, _ => .ok false

/-- `isTruthy` from the evaluation engine.  The `case int, int32, int64`
and `case float32, float64` clauses of the Go type switch bind `v` at
type `interface{}` (multi-type case), so `v != 0` compares against the
untyped constant `0` at its default type `int`, and `v != 0.0` against a
`float64`: an `int32`/`int64` zero or a `float32` zero has a different
dynamic type and therefore compares UNEQUAL, i.e. is truthy. -/
def isTruthy : GoValue → Bool
  | .vbool b => b
  | .vstr s => s != "" && s != "False" && s != "false"
  | .vint n => n != 0        -- dynamic type int, compared with int(0)
  | .vint32 _ => true        -- int32 never equals interface{int(0)}
  | .vint64 _ => true        -- int64 never equals interface{int(0)}
  | .vfloat32 _ => true      -- float32 never equals interface{float64(0.0)}
  | .vfloat64 q => q != 0    -- dynamic type float64, compared with 0.0
  | .vnull => false
  | .varr _ => true          -- default: non-nil objects are truthy

/-- `toNumber` from the evaluation engine: numeric coercion to `float64`
(modelled as an exact rational). -/
def toNumber : GoValue → Option ℚ
  | .vint n => some n
  | .vint32 n => some n
  | .vint64 n => some n
  | .vfloat32 q => some q
  | .vfloat64 q => some q
  | _ => none

mutual

/-- Approximation of Go `fmt` `%v` for a `GoValue`; only used to build
reason strings, whose exact text no claim depends on except for the
literal reasons, which contain no formatted values. -/
def goFormat : GoValue → String
  | .vnull => "<nil>"
  | .vbool b => if b then "true" else "false"
  | .vstr s => s
  | .vint n => toString n
  | .vint32 n => toString n
  | .vint64 n => toString n
  | .vfloat32 q => toString q
  | .vfloat64 q => toString q
  | .varr xs => "[" ++ String.intercalate " " (goFormatList xs) ++ "]"

/-- Formats each element of a `[]interface{}` value. -/
def goFormatList : List GoValue → List String
  | [] => []
  | x :: xs => goFormat x :: goFormatList xs

end

/-- Formatting of a `float64` (`%v` on the coerced number in the
`gt`/`lt` reasons). -/
def goFormatNum (q : ℚ) : String := toString q

/- ## DSL types (`internal/dsl`) -/

/-- `dsl.Operator` is a Go string type; the constants follow. -/
abbrev Operator := String

def Equals : Operator := "equals"
def NotEquals : Operator := "not_equals"
def Exists : Operator := "exists"
def NotExists : Operator := "not_exists"
def GreaterThan : Operator := "gt"
def LessThan : Operator := "lt"
def Contains : Operator := "contains"
def AnyTrue : Operator := "any_true"
def AllTrue : Operator := "all_true"

/-- `dsl.Relation` is a Go string type. -/
abbrev Relation := String

def Same : Relation := "same"
def Owner : Relation := "owner"
def Selector : Relation := "selector"
def Node : Relation := "node"

/-- `dsl.Severity` is a Go string type. -/
abbrev Severity := String

def Critical : Severity := "critical"
def Degraded : Severity := "degraded"
def Warning : Severity := "warning"

/-- `dsl.Predicate`.  A Go `interface{}` `Value` left unset is the nil
interface, modelled as `GoValue.vnull`. -/
structure Predicate where
  field : String
  operator : Operator
  value : GoValue := .vnull

structure Scope where
  relation : Relation

structure Requirement where
  invariant : String
  scope : Scope

structure Subject where
  kind : String
  ns : String := ""                     -- `Namespace` in the Go source
  selector : List (String × String) := []

structure Responsibility where
  primary : String
  secondary : String := ""
  team : String := ""

structure Invariant where
  id : String
  version : Int := 0
  description : String := ""
  subject : Subject
  predicate : Option Predicate := none
  requires : List Requirement := []
  blocks : List String := []
  responsibility : Responsibility
  severity : Severity := ""

/- ## `types.StateEvent` and `types.EvaluationContext` -/

/-- `types.StateEvent`; `FieldDiff` is the content of the Go
`map[string]interface{}` as an association list, `Timestamp` a
`time.Time` modelled as a natural number, `FullState` omitted (opaque,
never read by the core). -/
structure StateEvent where
  uid : String
  kind : String
  ns : String := ""
  name : String := ""
  version : String := ""
  timestamp : Nat := 0
  fieldDiff : List (String × GoValue) := []
  actor : String := ""

structure EvaluationContext where
  resource : StateEvent
  relatedStates : List (String × StateEvent) := []
  timestamp : Nat := 0

/- ## Go map assignment on association-list contents -/

/-- Assignment `m[k] = v` on the canonical association-list contents of
a Go map: replace the entry in place if the key is present, otherwise
append it. -/
def mapUpdate {α : Type} (m : List (String × α)) (k : String) (v : α) :
    List (String × α) :=
  if m.any (fun p => p.1 == k) then
    m.map (fun p => if p.1 == k then (k, v) else p)
  else
    m ++ [(k, v)]

/- ## `state.MemoryStore` -/

/-- `state.MemoryStore`: the append-only event list, the
latest-event-per-uid Go map, and the uid-list-per-kind Go map (the
slices themselves are ordered, only the map keying is a Go map). -/
structure MemoryStore where
  events : List StateEvent := []
  latestByUID : List (String × StateEvent) := []
  uidsByKind : List (String × List String) := []

def NewMemoryStore : MemoryStore := {}

/-- `MemoryStore.Record` (always returns a nil error, so the error is
not modelled): append to history, overwrite the latest-by-uid pointer,
and register the uid under its kind if not already present. -/
def Record (s : MemoryStore) (event : StateEvent) : MemoryStore :=
  let uids := (s.uidsByKind.lookup event.kind).getD []
  let uids' := if uids.contains event.uid then uids else uids ++ [event.uid]
  { events := s.events ++ [event]
    latestByUID := mapUpdate s.latestByUID event.uid event
    uidsByKind := mapUpdate s.uidsByKind event.kind uids' }

/-- `MemoryStore.GetByUID`. -/
def GetByUID (s : MemoryStore) (uid : String) : Option StateEvent :=
  s.latestByUID.lookup uid

/-- `MemoryStore.GetLatestByKind`. -/
def GetLatestByKind (s : MemoryStore) (kind : String) : List StateEvent :=
  ((s.uidsByKind.lookup kind).getD []).filterMap (fun uid => s.latestByUID.lookup uid)

/-- Bool prefix test on character lists. -/
def listStartsWith : List Char → List Char → Bool
  | [], _ => true
  | _ :: _, [] => false
  | a :: as, b :: bs => a == b && listStartsWith as bs

/-- `strings.HasPrefix(s, pre)`: `s` starts with `pre` (an executable
model of the string prefix test — the library `String.isPrefixOf` is
defined by well-founded recursion and does not reduce in the kernel). -/
def strStartsWith (pre s : String) : Bool :=
  listStartsWith pre.data s.data

/- ## `authority.ControllerAuthorityMap` -/

structure ControllerMetadata where
  name : String
  description : String := ""
  team : String := ""
  contact : String := ""
  priority : Int := 0

/-- `authority.ControllerAuthorityMap`: `mappings` and `metadata` are Go
maps, held as insertion-ordered association lists with unique keys. -/
structure ControllerAuthorityMap where
  mappings : List (String × List String) := []
  metadata : List (String × ControllerMetadata) := []

/-- `addAuthority`: the Go map assignment `cam.mappings[field] = controllers`. -/
def ControllerAuthorityMap.addAuthority (cam : ControllerAuthorityMap) (field : String)
    (controllers : List String) : ControllerAuthorityMap :=
  { cam with mappings := mapUpdate cam.mappings field controllers }

def ControllerAuthorityMap.setMetadata (cam : ControllerAuthorityMap) (controller : String)
    (md : ControllerMetadata) : ControllerAuthorityMap :=
  { cam with metadata := mapUpdate cam.metadata controller md }

/-- The body of `initializeAuthorities`, in source order; the second
registrations of `status.conditions` and `status.phase` overwrite the
earlier ones. -/
def initAuthoritiesPod (cam : ControllerAuthorityMap) : ControllerAuthorityMap :=
  (((((((cam.addAuthority "status.phase" ["kubelet"]).addAuthority
      "status.conditions" ["kubelet"]).addAuthority
      "status.containerStatuses" ["kubelet"]).addAuthority
      "status.initContainerStatuses" ["kubelet"]).addAuthority
      "status.hostIP" ["kubelet"]).addAuthority
      "status.podIP" ["kubelet"]).addAuthority
      "status.startTime" ["kubelet"])

def initAuthoritiesWorkload (cam : ControllerAuthorityMap) : ControllerAuthorityMap :=
  ((((((cam.addAuthority "spec.nodeName" ["kube-scheduler"]).addAuthority
      "spec.replicas" ["deployment-controller", "replicaset-controller", "statefulset-controller"]).addAuthority
      "status.replicas" ["replicaset-controller", "deployment-controller", "statefulset-controller"]).addAuthority
      "status.readyReplicas" ["replicaset-controller", "deployment-controller", "statefulset-controller"]).addAuthority
      "status.availableReplicas" ["deployment-controller"]).addAuthority
      "status.updatedReplicas" ["deployment-controller"])

def initAuthoritiesCluster (cam : ControllerAuthorityMap) : ControllerAuthorityMap :=
  ((((((((cam.addAuthority "status.loadBalancer" ["service-controller", "cloud-controller-manager"]).addAuthority
      "status.endpoints" ["endpoint-controller", "endpointslice-controller"]).addAuthority
      "status.conditions" ["node-controller", "kubelet"]).addAuthority
      "status.allocatable" ["kubelet"]).addAuthority
      "status.capacity" ["kubelet"]).addAuthority
      "status.addresses" ["kubelet", "cloud-controller-manager"]).addAuthority
      "status.phase" ["pv-controller", "pvc-protection-controller"]).addAuthority
      "metadata.deletionTimestamp" ["garbage-collector"]).addAuthority
      "metadata.finalizers" ["*"]

def initAuthoritiesMetadata (cam : ControllerAuthorityMap) : ControllerAuthorityMap :=
  (((((((cam.setMetadata "kubelet"
      { name := "kubelet", description := "Node agent that manages pod lifecycle and reports status"
        team := "platform-node", contact := "platform-team@company.com", priority := 1 }).setMetadata
    "kube-scheduler"
      { name := "kube-scheduler", description := "Assigns pods to nodes based on resource requirements"
        team := "platform", contact := "platform-team@company.com", priority := 2 }).setMetadata
    "deployment-controller"
      { name := "deployment-controller", description := "Manages deployment rollouts and ReplicaSets"
        team := "platform", contact := "platform-team@company.com", priority := 3 }).setMetadata
    "replicaset-controller"
      { name := "replicaset-controller", description := "Ensures desired number of pod replicas are running"
        team := "platform", contact := "platform-team@company.com", priority := 3 }).setMetadata
    "node-controller"
      { name := "node-controller", description := "Monitors node health and manages node lifecycle"
        team := "infrastructure", contact := "infra-team@company.com", priority := 1 }).setMetadata
    "service-controller"
      { name := "service-controller", description := "Manages service endpoints and load balancers"
        team := "platform", contact := "platform-team@company.com", priority := 3 }).setMetadata
    "pv-controller"
      { name := "pv-controller", description := "Manages PersistentVolume binding and lifecycle"
        team := "storage", contact := "storage-team@company.com", priority := 4 }).setMetadata
    "garbage-collector"
      { name := "garbage-collector", description := "Cleans up orphaned resources"
        team := "platform", contact := "platform-team@company.com", priority := 5 }

/-- `NewControllerAuthorityMap`: empty maps, then `initializeAuthorities`. -/
def NewControllerAuthorityMap : ControllerAuthorityMap :=
  initAuthoritiesMetadata (initAuthoritiesCluster (initAuthoritiesWorkload (initAuthoritiesPod {})))

/-- `GetAuthorizedControllers`: exact-key lookup in the map contents,
then a `range` over the map in the (unspecified) iteration order `ord`
returning the first entry whose key is a string prefix
(`strings.HasPrefix(field, mappedField)`) of the queried field. -/
def GetAuthorizedControllers (cam : ControllerAuthorityMap)
    (ord : List (String × List String)) (field : String) : List String :=
  match cam.mappings.lookup field with
  | some controllers => controllers
  | none =>
    match ord.find? (fun e => strStartsWith e.1 field) with
    | some e => e.2
    | none => []

/-- `GetAllControllers`: a `range` over the map in iteration order
`ord`, collecting each not-yet-seen controller other than `"*"` in
encounter order. -/
def GetAllControllers (ord : List (String × List String)) : List String :=
  ord.foldl
    (fun acc e =>
      e.2.foldl
        (fun acc ctrl => if !acc.contains ctrl && ctrl != "*" then acc ++ [ctrl] else acc)
        acc)
    []

/-- `GetControllerMetadata`. -/
def GetControllerMetadata (cam : ControllerAuthorityMap) (controller : String) :
    Option ControllerMetadata :=
  cam.metadata.lookup controller

/-- `ValidateAuthority`. -/
def ValidateAuthority (cam : ControllerAuthorityMap)
    (ord : List (String × List String)) (controller field : String) : Bool :=
  (GetAuthorizedControllers cam ord field).any (fun ctrl => ctrl == controller || ctrl == "*")

/- ## The evaluation engine (`package engine`) -/

/-- `engine.ViolationResult`; the defaults are the Go zero values, which
is how `evaluateDependency` builds its partial results. -/
structure ViolationResult where
  invariantID : String := ""
  violated : Bool := false
  reason : String := ""
  responsibleActor : String := ""
  eliminatedActors : List String := []
  affectedResource : String := ""
  detectedAt : Nat := 0
  severity : Severity := ""
  deriving DecidableEq, Repr

/-- `engine.EvaluationLogEntry`; the wall-clock `Timestamp`/`Duration`
are not modelled (no property depends on them). -/
structure EvaluationLogEntry where
  invariantID : String
  resourceUID : String
  result : Bool
  reason : String
  timestamp : Nat := 0
  duration : Nat := 0
  deriving DecidableEq, Repr

/-- The last `n` elements of a list (`l[len(l)-n:]`). -/
def lastN {α : Type} (n : Nat) (l : List α) : List α :=
  l.drop (l.length - n)

/-- `logEvaluation`: append an entry, then keep only the last 1000
entries when the log exceeds 1000. -/
def logEvaluation (log : List EvaluationLogEntry) (invID resourceUID : String)
    (result : Bool) (reason : String) : List EvaluationLogEntry :=
  let log :=
    log ++ [{ invariantID := invID, resourceUID := resourceUID,
              result := result, reason := reason }]
  if log.length > 1000 then log.drop (log.length - 1000) else log

/-- The loop of Go `contains` over the elements of a `[]interface{}`:
`item == pred.Value` element by element, with the panic of an
uncomparable comparison propagating. -/
def containsValue (target : GoValue) : List GoValue → Except Abn Bool
  | [] => .ok false
  | item :: rest => do
    let eq ← goEq item target
    if eq then pure true else containsValue target rest

/-- `evaluatePredicateWithReason`: the operator switch of the engine.
Go's `value, exists := subject.FieldDiff[pred.Field]` is the association
lookup; the `==`/`!=` interface comparisons of `equals`, `not_equals`
and `contains` go through `goEq` and can therefore panic. -/
def evaluatePredicateWithReason (pred : Predicate) (subject : StateEvent) :
    Except Abn (Bool × String) :=
  let found := subject.fieldDiff.lookup pred.field
  if pred.operator == Exists then
    match found with
    | none => .ok (false, "Field " ++ pred.field ++ " does not exist")
    | some _ => .ok (true, "")
  else if pred.operator == NotExists then
    match found with
    | some value =>
      .ok (false, "Field " ++ pred.field ++ " exists but should not (value: "
            ++ goFormat value ++ ")")
    | none => .ok (true, "")
  else if pred.operator == Equals then
    match found with
    | none =>
      .ok (false, "Field " ++ pred.field ++ " does not exist (expected: "
            ++ goFormat pred.value ++ ")")
    | some value => do
      let eq ← goEq value pred.value
      if !eq then
        .ok (false, "Field " ++ pred.field ++ " is \x27" ++ goFormat value
              ++ "\x27 (expected: " ++ goFormat pred.value ++ ")")
      else .ok (true, "")
  else if pred.operator == NotEquals then
    match found with
    | none => .ok (true, "")
    | some value => do
      let eq ← goEq value pred.value
      if eq then
        .ok (false, "Field " ++ pred.field ++ " is \x27" ++ goFormat value
              ++ "\x27 (must not equal: " ++ goFormat pred.value ++ ")")
      else .ok (true, "")
  else if pred.operator == GreaterThan then
    match found with
    | none => .ok (false, "Field " ++ pred.field ++ " does not exist")
    | some value =>
      match toNumber value with
      | none => .ok (false, "Field " ++ pred.field ++ " is not numeric: " ++ goFormat value)
      | some numValue =>
        match toNumber pred.value with
        | none => .ok (false, "Comparison value is not numeric")
        | some expectedNum =>
          if numValue ≤ expectedNum then
            .ok (false, "Field " ++ pred.field ++ " is " ++ goFormatNum numValue
                  ++ " (must be > " ++ goFormatNum expectedNum ++ ")")
          else .ok (true, "")
  else if pred.operator == LessThan then
    match found with
    | none => .ok (false, "Field " ++ pred.field ++ " does not exist")
    | some value =>
      match toNumber value with
      | none => .ok (false, "Field " ++ pred.field ++ " is not numeric: " ++ goFormat value)
      | some numValue =>
        match toNumber pred.value with
        | none => .ok (false, "Comparison value is not numeric")
        | some expectedNum =>
          if numValue ≥ expectedNum then
            .ok (false, "Field " ++ pred.field ++ " is " ++ goFormatNum numValue
                  ++ " (must be < " ++ goFormatNum expectedNum ++ ")")
          else .ok (true, "")
  else if pred.operator == AnyTrue then
    match found with
    | none => .ok (false, "Field " ++ pred.field ++ " does not exist")
    | some value =>
      match value with
      | .varr arr =>
        if arr.any isTruthy then .ok (true, "")
        else .ok (false, "Field " ++ pred.field ++ " has no truthy elements")
      | _ =>
        if isTruthy value then .ok (true, "")
        else .ok (false, "Field " ++ pred.field ++ " is not true")
  else if pred.operator == AllTrue then
    match found with
    | none => .ok (false, "Field " ++ pred.field ++ " does not exist")
    | some value =>
      match value with
      | .varr arr =>
        if arr.isEmpty then .ok (false, "Field " ++ pred.field ++ " is empty array")
        else
          match arr.find? (fun item => !isTruthy item) with
          | some item =>
            .ok (false, "Field " ++ pred.field ++ " has non-truthy element: "
                  ++ goFormat item)
          | none => .ok (true, "")
      | _ =>
        if isTruthy value then .ok (true, "")
        else .ok (false, "Field " ++ pred.field ++ " is not true")
  else if pred.operator == Contains then
    match found with
    | none => .ok (false, "Field " ++ pred.field ++ " does not exist")
    | some value =>
      match value with
      | .varr arr => do
        let has ← containsValue pred.value arr
        if has then .ok (true, "")
        else .ok (false, "Field " ++ pred.field ++ " does not contain " ++ goFormat pred.value)
      | _ => .ok (false, "Field " ++ pred.field ++ " is not an array")
  else
    .ok (false, "Unknown operator: " ++ pred.operator)

/-- `determineResponsibility`: the single authorised controller if the
predicate's field has exactly one, else the invariant's primary. -/
def determineResponsibility (cam : ControllerAuthorityMap)
    (ord : List (String × List String)) (inv : Invariant) : String :=
  match inv.predicate with
  | some pred =>
    let authorizedControllers := GetAuthorizedControllers cam ord pred.field
    match authorizedControllers with
    | [c] => c
    | _ =>
      match authorizedControllers.find?
          (fun controller => controller == inv.responsibility.primary) with
      | some controller => controller
      | none => inv.responsibility.primary
  | none => inv.responsibility.primary

/-- `eliminateActors`: every known controller that is neither the primary
nor authorised for the offending field.  The two Go `range`s over the
authority map may in principle use different iteration orders, hence the
two order parameters. -/
def eliminateActors (cam : ControllerAuthorityMap)
    (ordAuth ordAll : List (String × List String)) (field primary : String) :
    List String :=
  let authorized := GetAuthorizedControllers cam ordAuth field
  let allControllers := GetAllControllers ordAll
  allControllers.filter
    (fun controller => controller != primary && !authorized.contains controller)

/-- The engine configuration: the registry contents (a Go map keyed by
invariant ID), the authority map, and the model's ambient iteration
order for the authority map's `mappings`. -/
structure EvaluationEngine where
  invariants : List (String × Invariant)
  authorityMap : ControllerAuthorityMap
  ord : List (String × List String)

/-- `evaluateDependency`, parameterised by the recursive evaluation of
the required invariant on the same context (`same` relation). -/
def evaluateDependencyCore
    (child : Invariant → List EvaluationLogEntry →
      Except Abn (Option ViolationResult × List EvaluationLogEntry))
    (registry : List (String × Invariant)) (req : Requirement)
    (log : List EvaluationLogEntry) :
    Except Abn (Option ViolationResult × List EvaluationLogEntry) :=
  match registry.lookup req.invariant with
  | none =>
    .ok (some { invariantID := req.invariant, violated := true,
                reason := "Required invariant not registered" }, log)
  | some reqInv =>
    if req.scope.relation == Same then
      child reqInv log
    else if req.scope.relation == Owner || req.scope.relation == Node
        || req.scope.relation == Selector then
      .ok (some { invariantID := reqInv.id, violated := true,
                  reason := "Dependency relation not supported by StateStore" }, log)
    else
      .ok (some { invariantID := reqInv.id, violated := true,
                  reason := "Unknown dependency relation" }, log)

/-- The `for _, req := range inv.Requires` loop of `EvaluateWithContext`:
skip requirements whose target is not registered, stop at the first
failing dependency wrapping its reason and inheriting its actors, and
log a satisfied evaluation when the loop completes. -/
def evalRequiresCore (registry : List (String × Invariant))
    (dep : Requirement → List EvaluationLogEntry →
      Except Abn (Option ViolationResult × List EvaluationLogEntry))
    (inv : Invariant) (ctx : EvaluationContext) (result0 : ViolationResult) :
    List Requirement → List EvaluationLogEntry →
      Except Abn (Option ViolationResult × List EvaluationLogEntry)
  | [], log => .ok (none, logEvaluation log inv.id ctx.resource.uid true "satisfied")
  | req :: rest, log =>
    match registry.lookup req.invariant with
    | none => evalRequiresCore registry dep inv ctx result0 rest log
    | some reqInv =>
      match dep req log with
      | .error a => .error a
      | .ok (none, log') => evalRequiresCore registry dep inv ctx result0 rest log'
      | .ok (some depViolation, log') =>
        let reason := "Dependency " ++ reqInv.id ++ " failed: " ++ depViolation.reason
        .ok (some { result0 with
                      violated := true
                      reason := reason
                      responsibleActor := depViolation.responsibleActor
                      eliminatedActors := depViolation.eliminatedActors },
             logEvaluation log' inv.id ctx.resource.uid false reason)

/-- `EvaluateWithContext`, total by fuel on the `same`-relation
recursion (the Go code recurses unboundedly on cyclic `requires`
graphs).  Threads the engine's evaluation log; returns `none` when the
invariant is satisfied. -/
def evaluateWithContext (E : EvaluationEngine) :
    Nat → Invariant → EvaluationContext → List EvaluationLogEntry →
      Except Abn (Option ViolationResult × List EvaluationLogEntry)
  | 0, _, _, _ => .error .outOfFuel
  | fuel + 1, inv, ctx, log =>
    let result0 : ViolationResult :=
      { invariantID := inv.id, violated := false,
        affectedResource := ctx.resource.ns ++ "/" ++ ctx.resource.name,
        detectedAt := ctx.timestamp, severity := inv.severity }
    match inv.predicate with
    | none =>
      evalRequiresCore E.invariants
        (fun req l =>
          evaluateDependencyCore (fun i l' => evaluateWithContext E fuel i ctx l')
            E.invariants req l)
        inv ctx result0 inv.requires log
    | some pred =>
      match evaluatePredicateWithReason pred ctx.resource with
      | .error a => .error a
      | .ok (satisfied, reason) =>
        if satisfied then
          evalRequiresCore E.invariants
            (fun req l =>
              evaluateDependencyCore (fun i l' => evaluateWithContext E fuel i ctx l')
                E.invariants req l)
            inv ctx result0 inv.requires log
        else
          let responsible := determineResponsibility E.authorityMap E.ord inv
          let eliminated := eliminateActors E.authorityMap E.ord E.ord pred.field responsible
          .ok (some { result0 with
                        violated := true
                        reason := reason
                        responsibleActor := responsible
                        eliminatedActors := eliminated },
               logEvaluation log inv.id ctx.resource.uid false reason)

/-- `evaluateDependency` proper (dispatching `same` back into
`evaluateWithContext` with one unit of fuel consumed). -/
def evaluateDependency (E : EvaluationEngine) (fuel : Nat) (req : Requirement)
    (ctx : EvaluationContext) (log : List EvaluationLogEntry) :
    Except Abn (Option ViolationResult × List EvaluationLogEntry) :=
  evaluateDependencyCore (fun i l => evaluateWithContext E fuel i ctx l)
    E.invariants req log

/-- The requirement loop with the dependency evaluator instantiated. -/
def evalRequires (E : EvaluationEngine) (fuel : Nat) (inv : Invariant)
    (ctx : EvaluationContext) (result0 : ViolationResult)
    (reqs : List Requirement) (log : List EvaluationLogEntry) :
    Except Abn (Option ViolationResult × List EvaluationLogEntry) :=
  evalRequiresCore E.invariants (fun req l => evaluateDependency E fuel req ctx l)
    inv ctx result0 reqs log

/-- A sequence of single-subject evaluations threading the engine's
evaluation log (what repeated callers of `EvaluateWithContext` do). -/
def runEvaluations (E : EvaluationEngine) (fuel : Nat) :
    List (Invariant × EvaluationContext) → List EvaluationLogEntry →
      Except Abn (List EvaluationLogEntry)
  | [], log => .ok log
  | (inv, ctx) :: rest, log =>
    match evaluateWithContext E fuel inv ctx log with
    | .error a => .error a
    | .ok (_, log') => runEvaluations E fuel rest log'

/-- `InvariantEngine.Evaluate` restricted to one invariant: evaluate it
against every subject of the invariant's kind currently in the store,
collecting the violations (`ctx.Timestamp` is `time.Now()`, modelled 0). -/
def Evaluate (E : EvaluationEngine) (fuel : Nat) (store : MemoryStore)
    (inv : Invariant) (log : List EvaluationLogEntry) :
    Except Abn (List ViolationResult × List EvaluationLogEntry) :=
  (GetLatestByKind store inv.subject.kind).foldlM
    (fun (acc : List ViolationResult × List EvaluationLogEntry) subject => do
      let ctx : EvaluationContext := { resource := subject, timestamp := 0 }
      let (v?, log') ← evaluateWithContext E fuel inv ctx acc.2
      match v? with
      | some v => pure (acc.1 ++ [v], log')
      | none => pure (acc.1, log'))
    ([], log)

/- ## Ghost instrumentation: the untruncated append history

The engine never reads its evaluation log while evaluating, so the full
append history of a run is obtained by re-running the SAME evaluation
with the 1000-entry eviction of `logEvaluation` removed.  The three
definitions below are textual copies of `evalRequiresCore`,
`evaluateWithContext` and `runEvaluations` with `logEvaluation` replaced
by the plain append `logAppend`; the simulation theorems prove that the
engine's log is, at every point of a run, exactly the last-1000 suffix
of this history. -/

/-- `logEvaluation` without the 1000-entry eviction. -/
def logAppend (log : List EvaluationLogEntry) (invID resourceUID : String)
    (result : Bool) (reason : String) : List EvaluationLogEntry :=
  log ++ [{ invariantID := invID, resourceUID := resourceUID,
            result := result, reason := reason }]

/-- `evalRequiresCore` on the untruncated log. -/
def evalRequiresCoreGhost (registry : List (String × Invariant))
    (dep : Requirement → List EvaluationLogEntry →
      Except Abn (Option ViolationResult × List EvaluationLogEntry))
    (inv : Invariant) (ctx : EvaluationContext) (result0 : ViolationResult) :
    List Requirement → List EvaluationLogEntry →
      Except Abn (Option ViolationResult × List EvaluationLogEntry)
  | [], log => .ok (none, logAppend log inv.id ctx.resource.uid true "satisfied")
  | req :: rest, log =>
    match registry.lookup req.invariant with
    | none => evalRequiresCoreGhost registry dep inv ctx result0 rest log
    | some reqInv =>
      match dep req log with
      | .error a => .error a
      | .ok (none, log') => evalRequiresCoreGhost registry dep inv ctx result0 rest log'
      | .ok (some depViolation, log') =>
        let reason := "Dependency " ++ reqInv.id ++ " failed: " ++ depViolation.reason
        .ok (some { result0 with
                      violated := true
                      reason := reason
                      responsibleActor := depViolation.responsibleActor
                      eliminatedActors := depViolation.eliminatedActors },
             logAppend log' inv.id ctx.resource.uid false reason)

/-- `evaluateWithContext` on the untruncated log. -/
def evaluateWithContextGhost (E : EvaluationEngine) :
    Nat → Invariant → EvaluationContext → List EvaluationLogEntry →
      Except Abn (Option ViolationResult × List EvaluationLogEntry)
  | 0, _, _, _ => .error .outOfFuel
  | fuel + 1, inv, ctx, log =>
    let result0 : ViolationResult :=
      { invariantID := inv.id, violated := false,
        affectedResource := ctx.resource.ns ++ "/" ++ ctx.resource.name,
        detectedAt := ctx.timestamp, severity := inv.severity }
    match inv.predicate with
    | none =>
      evalRequiresCoreGhost E.invariants
        (fun req l =>
          evaluateDependencyCore (fun i l' => evaluateWithContextGhost E fuel i ctx l')
            E.invariants req l)
        inv ctx result0 inv.requires log
    | some pred =>
      match evaluatePredicateWithReason pred ctx.resource with
      | .error a => .error a
      | .ok (satisfied, reason) =>
        if satisfied then
          evalRequiresCoreGhost E.invariants
            (fun req l =>
              evaluateDependencyCore (fun i l' => evaluateWithContextGhost E fuel i ctx l')
                E.invariants req l)
            inv ctx result0 inv.requires log
        else
          let responsible := determineResponsibility E.authorityMap E.ord inv
          let eliminated := eliminateActors E.authorityMap E.ord E.ord pred.field responsible
          .ok (some { result0 with
                        violated := true
                        reason := reason
                        responsibleActor := responsible
                        eliminatedActors := eliminated },
               logAppend log inv.id ctx.resource.uid false reason)

/-- `runEvaluations` on the untruncated log. -/
def runEvaluationsGhost (E : EvaluationEngine) (fuel : Nat) :
    List (Invariant × EvaluationContext) → List EvaluationLogEntry →
      Except Abn (List EvaluationLogEntry)
  | [], log => .ok log
  | (inv, ctx) :: rest, log =>
    match evaluateWithContextGhost E fuel inv ctx log with
    | .error a => .error a
    | .ok (_, log') => runEvaluationsGhost E fuel rest log'

/- ## The MVP invariant set (`invariants.GetMVPInvariants`) -/

def GetMVPInvariants : List Invariant :=
  [ { id := "pod_exists"
      version := 1
      description := "Pod should not be deleted"
      subject := { kind := "Pod" }
      predicate := some { field := "metadata.deletionTimestamp", operator := NotExists }
      responsibility := { primary := "garbage-collector", team := "platform" }
      severity := Critical }
  , { id := "pod_scheduled"
      version := 1
      description := "Pod should be assigned to a node"
      subject := { kind := "Pod" }
      predicate := some { field := "spec.nodeName", operator := Exists }
      responsibility := { primary := "kube-scheduler", team := "platform" }
      severity := Critical }
  , { id := "node_ready"
      version := 1
      description := "Node should be in Ready state"
      subject := { kind := "Node" }
      predicate := some { field := "status.conditions[Ready].status"
                          operator := Equals, value := .vstr "True" }
      responsibility := { primary := "node-controller", secondary := "kubelet"
                          team := "infrastructure" }
      severity := Critical }
  , { id := "containers_running"
      version := 1
      description := "All containers in pod should be running"
      subject := { kind := "Pod" }
      predicate := some { field := "status.containerStatuses[*].state.running"
                          operator := AllTrue }
      blocks := ["pod_ready"]
      responsibility := { primary := "kubelet", team := "platform-node" }
      severity := Critical }
  , { id := "pod_ready"
      version := 1
      description := "Pod should be in Ready state"
      subject := { kind := "Pod" }
      predicate := some { field := "status.conditions[Ready].status"
                          operator := Equals, value := .vstr "True" }
      requires := [ { invariant := "containers_running", scope := { relation := Same } }
                  , { invariant := "node_ready", scope := { relation := Node } } ]
      blocks := ["service_has_endpoints"]
      responsibility := { primary := "kubelet", team := "platform-node" }
      severity := Critical }
  , { id := "service_has_endpoints"
      version := 1
      description := "Service should have ready endpoints"
      subject := { kind := "Service" }
      predicate := some { field := "endpoints[*].addresses", operator := AnyTrue }
      requires := [ { invariant := "pod_ready", scope := { relation := Selector } } ]
      responsibility := { primary := "kubelet", secondary := "service-controller"
                          team := "platform" }
      severity := Critical }
  ]

/-- `LoadDefaultInvariants`: load a list of invariants into the registry
map keyed by ID. -/
def LoadDefaultInvariants (invs : List Invariant) : List (String × Invariant) :=
  invs.foldl (fun m inv => mapUpdate m inv.id inv) []

/-- The registry contents after `NewEvaluationEngine` loads the MVP set. -/
def defaultRegistry : List (String × Invariant) :=
  LoadDefaultInvariants GetMVPInvariants

/-- `NewEvaluationEngine(store, NewControllerAuthorityMap())`, with the
map iteration order `ord` a model parameter. -/
def mkEngine (ord : List (String × List String)) : EvaluationEngine :=
  { invariants := defaultRegistry
    authorityMap := NewControllerAuthorityMap
    ord := ord }

/-- The default engine with the canonical (insertion-order) iteration
order; theorems about nondeterministic iteration quantify over `ord`
instead of using this. -/
def defaultEngine : EvaluationEngine :=
  mkEngine NewControllerAuthorityMap.mappings

/- ## Definitions taken from the spec's words, for comparison with the
source functions (refinement checks) -/

/-- Modelled from the spec (§4.2): `authorized_controllers` is claimed to
try an exact-key match first and otherwise scan the entries in INSERTION
order, returning the first whose key is a prefix of the queried field.
The canonical `mappings` list is the insertion order. -/
def getAuthorizedControllersSpec (cam : ControllerAuthorityMap) (field : String) :
    List String :=
  match cam.mappings.lookup field with
  | some controllers => controllers
  | none =>
    match cam.mappings.find? (fun e => strStartsWith e.1 field) with
    | some e => e.2
    | none => []

/-- Modelled from the spec (§3.1/§4.1): the latest event for a uid is
claimed to be the one with the greatest timestamp, ties broken by
insertion order (the later-recorded of two equal-timestamp events wins). -/
def specLatestByUID (evs : List StateEvent) (uid : String) : Option StateEvent :=
  (evs.filter (fun e => e.uid == uid)).foldl
    (fun acc e =>
      match acc with
      | none => some e
      | some b => if b.timestamp ≤ e.timestamp then some e else some b)
    none

/- ## Concrete fixtures used by the claim theorems and witnesses -/

/-- The `pod_ready` MVP invariant (literal copy; tied to the registry by
`rfl` facts in the theorems). -/
def podReadyInv : Invariant :=
  { id := "pod_ready"
    version := 1
    description := "Pod should be in Ready state"
    subject := { kind := "Pod" }
    predicate := some { field := "status.conditions[Ready].status"
                        operator := Equals, value := .vstr "True" }
    requires := [ { invariant := "containers_running", scope := { relation := Same } }
                , { invariant := "node_ready", scope := { relation := Node } } ]
    blocks := ["service_has_endpoints"]
    responsibility := { primary := "kubelet", team := "platform-node" }
    severity := Critical }

/-- The `node_ready` MVP invariant (literal copy). -/
def nodeReadyInv : Invariant :=
  { id := "node_ready"
    version := 1
    description := "Node should be in Ready state"
    subject := { kind := "Node" }
    predicate := some { field := "status.conditions[Ready].status"
                        operator := Equals, value := .vstr "True" }
    responsibility := { primary := "node-controller", secondary := "kubelet"
                        team := "infrastructure" }
    severity := Critical }

/-- The `service_has_endpoints` MVP invariant (literal copy). -/
def svcEndpointsInv : Invariant :=
  { id := "service_has_endpoints"
    version := 1
    description := "Service should have ready endpoints"
    subject := { kind := "Service" }
    predicate := some { field := "endpoints[*].addresses", operator := AnyTrue }
    requires := [ { invariant := "pod_ready", scope := { relation := Selector } } ]
    responsibility := { primary := "kubelet", secondary := "service-controller"
                        team := "platform" }
    severity := Critical }

/-- A user invariant whose only requirement names an invariant absent
from the registry. -/
def ghostInv : Invariant :=
  { id := "ghost_user"
    subject := { kind := "Pod" }
    requires := [ { invariant := "missing", scope := { relation := Same } } ]
    responsibility := { primary := "x" } }

/-- A pod whose own readiness condition holds but whose containers are
not all running (`containers_running` fails as a `same` dependency). -/
def podDepFailSubject : StateEvent :=
  { uid := "pod-1", kind := "Pod", ns := "default", name := "test-pod"
    fieldDiff := [ ("status.conditions[Ready].status", .vstr "True")
                 , ("status.containerStatuses[*].state.running", .varr [.vbool false]) ] }

/-- A pod whose readiness condition holds and whose containers all run,
so that evaluation reaches the `node`-relation requirement of
`pod_ready`. -/
def podNodeDepSubject : StateEvent :=
  { uid := "pod-2", kind := "Pod", ns := "default", name := "p2"
    fieldDiff := [ ("status.conditions[Ready].status", .vstr "True")
                 , ("status.containerStatuses[*].state.running", .varr [.vbool true]) ] }

/-- A service with a truthy endpoint address, so that evaluation of
`service_has_endpoints` reaches its `selector`-relation requirement. -/
def svcSubject : StateEvent :=
  { uid := "svc-1", kind := "Service", ns := "default", name := "s1"
    fieldDiff := [ ("endpoints[*].addresses", .varr [.vstr "10.0.0.1"]) ] }

/-- A node failing its readiness predicate (a pure predicate-failure
violation). -/
def nodeFailSubject : StateEvent :=
  { uid := "node-1", kind := "Node", ns := "", name := "n1"
    fieldDiff := [ ("status.conditions[Ready].status", .vstr "False") ] }

/-- Context wrapper (the engine builds it with `time.Now()`, modelled 0). -/
def ctxOf (s : StateEvent) : EvaluationContext := { resource := s }

/-- A two-entry authority map whose keys are one a prefix of the other:
`"a"` inserted before `"a.b"`. -/
def camAB : ControllerAuthorityMap :=
  (ControllerAuthorityMap.addAuthority
    (ControllerAuthorityMap.addAuthority {} "a" ["x"]) "a.b" ["y"])

/-- A Go map iteration order for `camAB` that visits `"a.b"` first. -/
def ordBA : List (String × List String) := [("a.b", ["y"]), ("a", ["x"])]

/-- An event with the GREATER timestamp recorded FIRST. -/
def evOld : StateEvent := { uid := "u", kind := "Pod", version := "1", timestamp := 2 }

/-- An event for the same uid with a SMALLER timestamp recorded SECOND. -/
def evNew : StateEvent := { uid := "u", kind := "Pod", version := "2", timestamp := 1 }

/-- A minimal engine for the log-bound witness run. -/
def emptyEngine : EvaluationEngine :=
  { invariants := [], authorityMap := {}, ord := [] }

/-- An invariant with no predicate and no requirements: each evaluation
logs exactly one satisfied entry. -/
def trivialInv : Invariant :=
  { id := "noop", subject := { kind := "Pod" }, responsibility := { primary := "p" } }

def trivialCtx : EvaluationContext := { resource := { uid := "u0", kind := "Pod" } }

/-- The log entry each `trivialInv` evaluation appends. -/
def satisfiedEntry : EvaluationLogEntry :=
  { invariantID := "noop", resourceUID := "u0", result := true, reason := "satisfied" }

/- # Lemmas about Go map assignment -/

theorem lookup_map_update_hit {α : Type} (k : String) (v : α) :
    ∀ m : List (String × α), (m.any fun p => p.1 == k) = true →
      List.lookup k (m.map fun p => if p.1 == k then (k, v) else p) = some v := by
  intro m
  induction m with
  | nil => intro h; simp at h
  | cons p m ih =>
    intro h
    obtain ⟨pk, pv⟩ := p
    by_cases hp : pk = k
    · subst hp
      rw [List.map_cons, if_pos (by simp)]
      exact List.lookup_cons_self
    · have hpb : (pk == k) = false := beq_eq_false_iff_ne.mpr hp
      have hkb : (k == pk) = false := beq_eq_false_iff_ne.mpr (Ne.symm hp)
      simp only [List.any_cons, hpb, Bool.false_or] at h
      rw [List.map_cons, if_neg (by simp [hpb])]
      simp only [List.lookup_cons, hkb]
      exact ih h

theorem lookup_append_single_hit {α : Type} (k : String) (v : α) :
    ∀ m : List (String × α), (m.any fun p => p.1 == k) = false →
      List.lookup k (m ++ [(k, v)]) = some v := by
  intro m
  induction m with
  | nil => intro _; exact List.lookup_cons_self
  | cons p m ih =>
    intro h
    obtain ⟨pk, pv⟩ := p
    simp only [List.any_cons, Bool.or_eq_false_iff] at h
    have hkb : (k == pk) = false :=
      beq_eq_false_iff_ne.mpr (Ne.symm (beq_eq_false_iff_ne.mp h.1))
    rw [List.cons_append]
    simp only [List.lookup_cons, hkb]
    exact ih h.2

theorem lookup_map_update_ne {α : Type} (k k' : String) (v : α) (hne : k' ≠ k) :
    ∀ m : List (String × α),
      List.lookup k' (m.map fun p => if p.1 == k then (k, v) else p)
        = List.lookup k' m := by
  have hkb : (k' == k) = false := beq_eq_false_iff_ne.mpr hne
  intro m
  induction m with
  | nil => simp
  | cons p m ih =>
    obtain ⟨pk, pv⟩ := p
    by_cases hp : pk = k
    · subst hp
      rw [List.map_cons, if_pos (by simp)]
      simp only [List.lookup_cons, hkb]
      exact ih
    · have hpb : (pk == k) = false := beq_eq_false_iff_ne.mpr hp
      rw [List.map_cons, if_neg (by simp [hpb])]
      simp only [List.lookup_cons]
      cases hb : (k' == pk) with
      | true => rfl
      | false => exact ih

theorem lookup_append_single_ne {α : Type} (k k' : String) (v : α) (hne : k' ≠ k) :
    ∀ m : List (String × α), List.lookup k' (m ++ [(k, v)]) = List.lookup k' m := by
  have hkb : (k' == k) = false := beq_eq_false_iff_ne.mpr hne
  intro m
  induction m with
  | nil =>
    simp only [List.nil_append, List.lookup_cons, hkb, List.lookup_nil]
  | cons p m ih =>
    obtain ⟨pk, pv⟩ := p
    rw [List.cons_append]
    simp only [List.lookup_cons]
    cases hb : (k' == pk) with
    | true => rfl
    | false => exact ih

theorem lookup_mapUpdate_self {α : Type} (m : List (String × α)) (k : String) (v : α) :
    (mapUpdate m k v).lookup k = some v := by
  unfold mapUpdate
  split
  · exact lookup_map_update_hit k v m (by assumption)
  · rename_i h
    exact lookup_append_single_hit k v m (Bool.eq_false_iff.mpr h)

theorem lookup_mapUpdate_ne {α : Type} (m : List (String × α)) (k k' : String) (v : α)
    (h : k' ≠ k) : (mapUpdate m k v).lookup k' = m.lookup k' := by
  unfold mapUpdate
  split
  · exact lookup_map_update_ne k k' v h m
  · exact lookup_append_single_ne k k' v h m

/- # C2: the store's latest-by-uid pointer -/

theorem getByUID_record (s : MemoryStore) (e : StateEvent) (uid : String) :
    GetByUID (Record s e) uid = if uid = e.uid then some e else GetByUID s uid := by
  show (mapUpdate s.latestByUID e.uid e).lookup uid = _
  by_cases h : uid = e.uid
  · rw [if_pos h, h]
    exact lookup_mapUpdate_self _ _ _
  · rw [if_neg h]
    exact lookup_mapUpdate_ne _ _ _ _ h

theorem getByUID_foldl (evs : List StateEvent) (s : MemoryStore) (uid : String) :
    GetByUID (evs.foldl Record s) uid
      = match evs.reverse.find? (fun e => e.uid == uid) with
        | some e => some e
        | none => GetByUID s uid := by
  induction evs generalizing s with
  | nil => simp
  | cons e evs ih =>
    simp only [List.foldl_cons, List.reverse_cons]
    rw [ih (Record s e), List.find?_append]
    cases hf : evs.reverse.find? (fun e => e.uid == uid) with
    | some x => simp [Option.orElse]
    | none =>
      rw [getByUID_record]
      by_cases h : e.uid = uid
      · have hb : (e.uid == uid) = true := beq_iff_eq.mpr h
        rw [if_pos h.symm]
        simp only [List.find?_cons, hb]
        rfl
      · have hb : (e.uid == uid) = false := beq_eq_false_iff_ne.mpr h
        rw [if_neg (fun hh => h hh.symm)]
        simp only [List.find?_cons, hb, List.find?_nil]
        rfl

/-- C2 (corrected): `GetByUID` returns the MOST RECENTLY RECORDED event
for the uid — `Record` overwrites `latestByUID` unconditionally, with no
timestamp comparison — and absence exactly when no event with the uid
was recorded.  (The claim's greatest-timestamp rule is refuted by
`c2_latest_is_last_write_counterexample`.) -/
theorem c2_latest_is_last_write (evs : List StateEvent) (uid : String) :
    GetByUID (evs.foldl Record NewMemoryStore) uid
        = evs.reverse.find? (fun e => e.uid == uid)
      ∧ (GetByUID (evs.foldl Record NewMemoryStore) uid = none
          ↔ ∀ e ∈ evs, e.uid ≠ uid) := by
  have hbase : GetByUID NewMemoryStore uid = none := rfl
  have hmain := getByUID_foldl evs NewMemoryStore uid
  rw [hbase] at hmain
  have heq : GetByUID (evs.foldl Record NewMemoryStore) uid
      = evs.reverse.find? (fun e => e.uid == uid) := by
    rw [hmain]
    cases evs.reverse.find? (fun e => e.uid == uid) <;> rfl
  refine ⟨heq, ?_⟩
  rw [heq]
  constructor
  · intro hn e he hu
    have := List.find?_eq_none.mp hn e (List.mem_reverse.mpr he)
    simp [hu] at this
  · intro h
    apply List.find?_eq_none.mpr
    intro e he
    have := h e (List.mem_reverse.mp he)
    simpa using this

/-- C2 counterexample: recording a SMALLER-timestamp event after a
greater-timestamp one for the same uid makes `GetByUID` return the later
RECORD (version "2", timestamp 1), while the claimed greatest-timestamp
rule picks the earlier one (version "1", timestamp 2). -/
theorem c2_latest_is_last_write_counterexample :
    (GetByUID ([evOld, evNew].foldl Record NewMemoryStore) "u").map StateEvent.version
        = some "2"
      ∧ (specLatestByUID [evOld, evNew] "u").map StateEvent.version = some "1"
      ∧ GetByUID ([evOld, evNew].foldl Record NewMemoryStore) "u"
          ≠ specLatestByUID [evOld, evNew] "u" := by
  refine ⟨rfl, rfl, fun h => ?_⟩
  exact absurd
    (congrArg (fun o => Option.map StateEvent.version o) h : some "2" = some "1")
    (by decide)

/-- C2 witness: the characterisation applied to the concrete two-record
run. -/
theorem c2_latest_is_last_write_witness :
    GetByUID ([evOld, evNew].foldl Record NewMemoryStore) "u"
      = [evOld, evNew].reverse.find? (fun e => e.uid == "u") :=
  (c2_latest_is_last_write [evOld, evNew] "u").1

/- # C3: the truthiness table -/

/-- C3 (code bug): the multi-type cases of `isTruthy` compare the
`interface{}` value against `int(0)` / `float64(0.0)`, so the zero
values of `int32`, `int64` and `float32` are TRUTHY (the first three
conjuncts), while the remaining conjuncts record the table entries the
code does satisfy. -/
theorem c3_truthiness_typed_zero :
    isTruthy (.vint32 0) = true
      ∧ isTruthy (.vint64 0) = true
      ∧ isTruthy (.vfloat32 0) = true
      ∧ isTruthy (.vint 0) = false
      ∧ isTruthy (.vfloat64 0) = false
      ∧ isTruthy (.vint 7) = true
      ∧ isTruthy (.vfloat64 (-2)) = true
      ∧ isTruthy .vnull = false
      ∧ isTruthy (.vbool true) = true
      ∧ isTruthy (.vbool false) = false
      ∧ isTruthy (.vstr "") = false
      ∧ isTruthy (.vstr "False") = false
      ∧ isTruthy (.vstr "false") = false
      ∧ isTruthy (.vstr "ok") = true
      ∧ isTruthy (.varr []) = true := by
  refine ⟨rfl, rfl, rfl, by decide, by decide, by decide, by decide, rfl, rfl, rfl,
    by decide, by decide, by decide, by decide, rfl⟩

/- # C4: a panic escapes the evaluator -/

/-- C4 (code bug): comparing two `[]interface{}` values in the `equals`
predicate panics ("comparing uncomparable type"), and the panic
propagates out of `EvaluateWithContext` instead of becoming an
unsatisfied predicate with a reason. -/
theorem c4_uncomparable_panic :
    evaluatePredicateWithReason
        { field := "f", operator := Equals, value := .varr [] }
        { uid := "u", kind := "Pod", fieldDiff := [("f", .varr [])] }
      = .error .comparingUncomparableType
    ∧ evaluateWithContext defaultEngine 5
        { id := "arr_eq", subject := { kind := "Pod" }
          predicate := some { field := "f", operator := Equals, value := .varr [] }
          responsibility := { primary := "p" } }
        (ctxOf { uid := "u", kind := "Pod", fieldDiff := [("f", .varr [])] }) []
      = .error .comparingUncomparableType := ⟨rfl, rfl⟩

/- # C5: authorized-controllers lookup order -/

/-- C5 counterexample: with the keys `"a"` (inserted first) and `"a.b"`,
the Go map iteration order that visits `"a.b"` first makes the prefix
scan for `"a.b.c"` return `["y"]`, while the claimed insertion-order scan
returns `["x"]`; a Go map records no insertion order, so the claimed
order is not what the code computes. -/
theorem c5_insertion_order_counterexample :
    ordBA.Perm camAB.mappings
      ∧ GetAuthorizedControllers camAB ordBA "a.b.c" = ["y"]
      ∧ getAuthorizedControllersSpec camAB "a.b.c" = ["x"]
      ∧ GetAuthorizedControllers camAB ordBA "a.b.c"
          ≠ getAuthorizedControllersSpec camAB "a.b.c" := by
  refine ⟨?_, rfl, rfl, by decide⟩
  exact List.Perm.swap _ _ _

/-- C5 (corrected): `authorized_controllers` returns the exact-key match
when one exists; otherwise it scans the entries in the Go map's
UNSPECIFIED iteration order and returns the actors of the first entry —
hence SOME entry, not necessarily the insertion-order-first entry —
whose key is a prefix of the field, and the empty sequence when no
entry's key is a prefix. -/
theorem c5_authorized_controllers_lookup (cam : ControllerAuthorityMap)
    (ord : List (String × List String)) (field : String)
    (hperm : ord.Perm cam.mappings) :
    (∀ cs, cam.mappings.lookup field = some cs →
        GetAuthorizedControllers cam ord field = cs)
      ∧ (cam.mappings.lookup field = none →
          (∃ e ∈ cam.mappings, strStartsWith e.1 field = true ∧
              GetAuthorizedControllers cam ord field = e.2)
            ∨ ((∀ e ∈ cam.mappings, strStartsWith e.1 field = false)
                ∧ GetAuthorizedControllers cam ord field = [])) := by
  constructor
  · intro cs h
    unfold GetAuthorizedControllers
    rw [h]
  · intro h
    unfold GetAuthorizedControllers
    rw [h]
    cases hf : ord.find? (fun e => strStartsWith e.1 field) with
    | some e =>
      left
      refine ⟨e, hperm.mem_iff.mp (List.mem_of_find?_eq_some hf), ?_, rfl⟩
      simpa using List.find?_some hf
    | none =>
      right
      refine ⟨?_, rfl⟩
      intro e he
      have := List.find?_eq_none.mp hf e (hperm.mem_iff.mpr he)
      simpa using this

/-- C5 witness: the characterisation applied to the two-entry map with
the swapped iteration order. -/
theorem c5_authorized_controllers_lookup_witness :
    ordBA.Perm camAB.mappings
      ∧ (camAB.mappings.lookup "a.b.c" = none →
          (∃ e ∈ camAB.mappings, strStartsWith e.1 "a.b.c" = true ∧
              GetAuthorizedControllers camAB ordBA "a.b.c" = e.2)
            ∨ ((∀ e ∈ camAB.mappings, strStartsWith e.1 "a.b.c" = false)
                ∧ GetAuthorizedControllers camAB ordBA "a.b.c" = [])) :=
  ⟨List.Perm.swap _ _ _,
   (c5_authorized_controllers_lookup camAB ordBA "a.b.c" (List.Perm.swap _ _ _)).2⟩

/- # C1: unregistered requirement targets -/

theorem evalRequiresCore_all_unregistered (registry : List (String × Invariant))
    (dep : Requirement → List EvaluationLogEntry →
      Except Abn (Option ViolationResult × List EvaluationLogEntry))
    (inv : Invariant) (ctx : EvaluationContext) (r0 : ViolationResult) :
    ∀ (reqs : List Requirement) (log : List EvaluationLogEntry),
      (∀ req ∈ reqs, registry.lookup req.invariant = none) →
      evalRequiresCore registry dep inv ctx r0 reqs log
        = .ok (none, logEvaluation log inv.id ctx.resource.uid true "satisfied") := by
  intro reqs
  induction reqs with
  | nil => intro log _; rfl
  | cons req rest ih =>
    intro log h
    unfold evalRequiresCore
    rw [h req (List.mem_cons_self _ _)]
    exact ih log (fun r hr => h r (List.mem_cons_of_mem _ hr))

/-- C1 (corrected): `EvaluateWithContext` SKIPS a requirement whose
target is not registered (the `continue` in the requirement loop), so no
violation is produced for it; the `Required invariant not registered`
violation is only built by `evaluateDependency` itself, which
`EvaluateWithContext` never calls for an unregistered target.  An
invariant with no predicate whose requirements all name unregistered
invariants therefore evaluates as satisfied. -/
theorem c1_unregistered_requirement_skipped
    (E : EvaluationEngine) (fuel : Nat) (inv : Invariant) (ctx : EvaluationContext)
    (r0 : ViolationResult) (req : Requirement) (rest : List Requirement)
    (log : List EvaluationLogEntry)
    (hmissing : E.invariants.lookup req.invariant = none) :
    evalRequires E fuel inv ctx r0 (req :: rest) log
        = evalRequires E fuel inv ctx r0 rest log
      ∧ evaluateDependency E fuel req ctx log
          = .ok (some { invariantID := req.invariant, violated := true,
                        reason := "Required invariant not registered" }, log)
      ∧ (inv.predicate = none →
          (∀ r ∈ inv.requires, E.invariants.lookup r.invariant = none) →
          evaluateWithContext E (fuel + 1) inv ctx log
            = .ok (none, logEvaluation log inv.id ctx.resource.uid true "satisfied")) := by
  refine ⟨?_, ?_, ?_⟩
  · unfold evalRequires
    conv_lhs => unfold evalRequiresCore
    rw [hmissing]
  · unfold evaluateDependency evaluateDependencyCore
    rw [hmissing]
  · intro hpred hall
    unfold evaluateWithContext
    rw [hpred]
    exact evalRequiresCore_all_unregistered _ _ inv ctx _ inv.requires log hall

/-- C1 counterexample: an invariant whose only requirement names the
unregistered invariant `missing` evaluates with NO violation at all (the
log records a satisfied evaluation), contradicting the claimed
`Required invariant not registered` violation. -/
theorem c1_unregistered_requirement_counterexample :
    defaultEngine.invariants.lookup "missing" = none
      ∧ ghostInv.requires
          = [{ invariant := "missing", scope := { relation := Same } }]
      ∧ evaluateWithContext defaultEngine 5 ghostInv (ctxOf { uid := "g", kind := "Pod" }) []
          = .ok (none, [{ invariantID := "ghost_user", resourceUID := "g",
                          result := true, reason := "satisfied" }]) :=
  ⟨rfl, rfl, rfl⟩

/-- C1 witness: the skip behaviour applied to the `ghostInv` fixture. -/
theorem c1_unregistered_requirement_witness :
    defaultEngine.invariants.lookup "missing" = none
      ∧ evaluateWithContext defaultEngine 5 ghostInv (ctxOf { uid := "g", kind := "Pod" }) []
          = .ok (none, logEvaluation [] ghostInv.id "g" true "satisfied") :=
  ⟨rfl,
   (c1_unregistered_requirement_skipped defaultEngine 4 ghostInv
      (ctxOf { uid := "g", kind := "Pod" }) {}
      { invariant := "missing", scope := { relation := Same } } [] [] rfl).2.2
     rfl
     (by
       intro r hr
       cases hr with
       | head => rfl
       | tail _ h => cases h)⟩

/- # C7: unsupported dependency relations -/

/-- C7 (corrected): a requirement with relation `owner`, `selector` or
`node` naming a registered invariant makes `evaluateDependency`
deterministically return a violation whose reason is EXACTLY
`Dependency relation not supported by StateStore` (leaving the log
untouched), and the requirement loop, on reaching that requirement,
surfaces a violation whose reason is the WRAPPED
`Dependency {id} failed: Dependency relation not supported by
StateStore`.  (That the surfaced reason is not the bare string refutes
the claim as stated; see the counterexample.) -/
theorem c7_unsupported_relation (E : EvaluationEngine) (fuel : Nat)
    (req : Requirement) (reqInv : Invariant) (ctx : EvaluationContext)
    (log : List EvaluationLogEntry) (inv : Invariant) (r0 : ViolationResult)
    (rest : List Requirement)
    (hreg : E.invariants.lookup req.invariant = some reqInv)
    (hrel : req.scope.relation = Owner ∨ req.scope.relation = Selector
        ∨ req.scope.relation = Node) :
    evaluateDependency E fuel req ctx log
        = .ok (some { invariantID := reqInv.id, violated := true,
                      reason := "Dependency relation not supported by StateStore" }, log)
      ∧ evalRequires E fuel inv ctx r0 (req :: rest) log
          = .ok (some { r0 with
                        violated := true
                        reason := "Dependency " ++ reqInv.id ++ " failed: "
                          ++ "Dependency relation not supported by StateStore"
                        responsibleActor := ""
                        eliminatedActors := [] },
                 logEvaluation log inv.id ctx.resource.uid false
                   ("Dependency " ++ reqInv.id ++ " failed: "
                     ++ "Dependency relation not supported by StateStore")) := by
  have hdep : evaluateDependency E fuel req ctx log
      = .ok (some { invariantID := reqInv.id, violated := true,
                    reason := "Dependency relation not supported by StateStore" }, log) := by
    unfold evaluateDependency evaluateDependencyCore
    rw [hreg]
    rcases hrel with h | h | h <;> rw [h] <;> rfl
  refine ⟨hdep, ?_⟩
  unfold evalRequires
  conv_lhs => unfold evalRequiresCore
  rw [hreg]
  simp only []
  rw [hdep]

/-- C7 counterexample: `pod_ready` requires the registered `node_ready`
with relation `node`; on a subject whose predicate and first dependency
are satisfied, evaluation yields a violation whose reason is the wrapped
string — NOT `Dependency relation not supported by StateStore` as
claimed. -/
theorem c7_unsupported_relation_counterexample :
    podReadyInv.requires.map Requirement.invariant
        = ["containers_running", "node_ready"]
      ∧ evaluatePredicateWithReason
          { field := "status.conditions[Ready].status", operator := Equals,
            value := .vstr "True" } podNodeDepSubject = .ok (true, "")
      ∧ evaluateWithContext defaultEngine 5 podReadyInv (ctxOf podNodeDepSubject) []
          = .ok (some { invariantID := "pod_ready", violated := true,
                        reason := "Dependency node_ready failed: Dependency relation not supported by StateStore",
                        responsibleActor := "", eliminatedActors := [],
                        affectedResource := "default/p2", detectedAt := 0,
                        severity := "critical" },
                 [ { invariantID := "containers_running", resourceUID := "pod-2",
                     result := true, reason := "satisfied" }
                 , { invariantID := "pod_ready", resourceUID := "pod-2",
                     result := false,
                     reason := "Dependency node_ready failed: Dependency relation not supported by StateStore" } ])
      ∧ ("Dependency node_ready failed: Dependency relation not supported by StateStore"
          ≠ "Dependency relation not supported by StateStore") :=
  ⟨rfl, rfl, rfl, by decide⟩

/-- C7 witness: the dependency-level determinism applied to the
`node_ready` requirement of `pod_ready`. -/
theorem c7_unsupported_relation_witness :
    defaultEngine.invariants.lookup "node_ready" = some nodeReadyInv
      ∧ evaluateDependency defaultEngine 3
          { invariant := "node_ready", scope := { relation := Node } }
          (ctxOf podNodeDepSubject) []
          = .ok (some { invariantID := nodeReadyInv.id, violated := true,
                        reason := "Dependency relation not supported by StateStore" }, []) :=
  ⟨rfl,
   (c7_unsupported_relation defaultEngine 3
      { invariant := "node_ready", scope := { relation := Node } } nodeReadyInv
      (ctxOf podNodeDepSubject) [] podReadyInv {} [] rfl
      (Or.inr (Or.inr rfl))).1⟩

/- # C10: dependency violations carry empty actor attribution -/

theorem evalRequires_front_pass (E : EvaluationEngine) (fuel : Nat)
    (inv : Invariant) (ctx : EvaluationContext) (r0 : ViolationResult) :
    ∀ pre : List Requirement,
      (∀ q ∈ pre, E.invariants.lookup q.invariant = none
        ∨ (∀ l, ∃ l2, evaluateDependency E fuel q ctx l = .ok (none, l2))) →
      ∀ (tail : List Requirement) (log : List EvaluationLogEntry),
        ∃ log2,
          evalRequiresCore E.invariants
            (fun req l =>
              evaluateDependencyCore (fun i l2 => evaluateWithContext E fuel i ctx l2)
                E.invariants req l)
            inv ctx r0 (pre ++ tail) log
          = evalRequiresCore E.invariants
              (fun req l =>
                evaluateDependencyCore (fun i l2 => evaluateWithContext E fuel i ctx l2)
                  E.invariants req l)
              inv ctx r0 tail log2 := by
  intro pre
  induction pre with
  | nil =>
    intro _ tail log
    exact ⟨log, rfl⟩
  | cons q pre ih =>
    intro hpre tail log
    have hq := hpre q (List.mem_cons_self q pre)
    have hpre2 : ∀ p ∈ pre, E.invariants.lookup p.invariant = none
        ∨ (∀ l, ∃ l2, evaluateDependency E fuel p ctx l = .ok (none, l2)) :=
      fun p hp => hpre p (List.mem_cons_of_mem q hp)
    rw [List.cons_append]
    cases hlook : E.invariants.lookup q.invariant with
    | none =>
      obtain ⟨log2, h2⟩ := ih hpre2 tail log
      refine ⟨log2, ?_⟩
      conv_lhs => unfold evalRequiresCore
      rw [hlook]
      exact h2
    | some reqInv =>
      rcases hq with hnone | hpass
      · rw [hlook] at hnone
        exact Option.noConfusion hnone
      · obtain ⟨l2, hl2⟩ := hpass log
        obtain ⟨log2, h2⟩ := ih hpre2 tail l2
        refine ⟨log2, ?_⟩
        conv_lhs => unfold evalRequiresCore
        rw [hlook]
        simp only []
        rw [show evaluateDependencyCore
              (fun i l3 => evaluateWithContext E fuel i ctx l3) E.invariants q log
            = Except.ok (none, l2) from hl2]
        exact h2

theorem evaluateWithContext_to_evalRequires (E : EvaluationEngine) (fuel : Nat)
    (inv : Invariant) (ctx : EvaluationContext) (log : List EvaluationLogEntry)
    (hpred : inv.predicate = none
      ∨ ∃ p s, inv.predicate = some p
          ∧ evaluatePredicateWithReason p ctx.resource = .ok (true, s)) :
    evaluateWithContext E (fuel + 1) inv ctx log
      = evalRequiresCore E.invariants
          (fun req l =>
            evaluateDependencyCore (fun i l2 => evaluateWithContext E fuel i ctx l2)
              E.invariants req l)
          inv ctx
          { invariantID := inv.id, violated := false,
            affectedResource := ctx.resource.ns ++ "/" ++ ctx.resource.name,
            detectedAt := ctx.timestamp, severity := inv.severity }
          inv.requires log := by
  rcases hpred with hpred | ⟨p, s, hpred, heval⟩
  · simp only [evaluateWithContext, hpred]
  · simp only [evaluateWithContext, hpred, heval, eq_self_iff_true, if_true]

/-- C10 (confirmed): a dependency violation from a requirement whose
relation is not `same` (`owner`, `selector`, `node`, or any unknown
value) with a registered target is built with the Go zero values
`responsible_actor = ""` and `eliminated_actors = nil`; and wherever
that requirement sits in `inv.requires` — after any front segment of
requirements that are each skipped (unregistered target) or passing —
the violation surfaced by evaluation (predicate absent or satisfied)
inherits exactly those empty attributions. -/
theorem c10_dependency_violation_empty_actors (E : EvaluationEngine) (fuel : Nat)
    (req : Requirement) (reqInv : Invariant) (ctx : EvaluationContext)
    (log : List EvaluationLogEntry) (inv : Invariant)
    (pre rest : List Requirement)
    (hreg : E.invariants.lookup req.invariant = some reqInv)
    (hrel : req.scope.relation ≠ Same)
    (hreqs : inv.requires = pre ++ req :: rest)
    (hpre : ∀ q ∈ pre, E.invariants.lookup q.invariant = none
      ∨ (∀ l, ∃ l2, evaluateDependency E fuel q ctx l = .ok (none, l2)))
    (hpred : inv.predicate = none
      ∨ ∃ p s, inv.predicate = some p
          ∧ evaluatePredicateWithReason p ctx.resource = .ok (true, s)) :
    (∀ l, ∃ dv, evaluateDependency E fuel req ctx l = .ok (some dv, l)
        ∧ dv.violated = true ∧ dv.responsibleActor = "" ∧ dv.eliminatedActors = [])
      ∧ (∃ v log2, evaluateWithContext E (fuel + 1) inv ctx log = .ok (some v, log2)
          ∧ v.violated = true ∧ v.responsibleActor = "" ∧ v.eliminatedActors = []) := by
  have hb : (req.scope.relation == Same) = false := beq_eq_false_iff_ne.mpr hrel
  have hdepAll : ∃ r, ∀ l, evaluateDependencyCore
        (fun i l2 => evaluateWithContext E fuel i ctx l2) E.invariants req l
      = .ok (some { invariantID := reqInv.id, violated := true, reason := r }, l) := by
    by_cases h2 : (req.scope.relation == Owner || req.scope.relation == Node
        || req.scope.relation == Selector) = true
    · refine ⟨"Dependency relation not supported by StateStore", fun l => ?_⟩
      unfold evaluateDependencyCore
      rw [hreg]
      simp only [hb, Bool.false_eq_true, if_false]
      rw [if_pos h2]
    · refine ⟨"Unknown dependency relation", fun l => ?_⟩
      unfold evaluateDependencyCore
      rw [hreg]
      simp only [hb, Bool.false_eq_true, if_false]
      rw [if_neg h2]
  obtain ⟨r, hdepAll⟩ := hdepAll
  refine ⟨fun l => ⟨_, hdepAll l, rfl, rfl, rfl⟩, ?_⟩
  obtain ⟨log2, hfront⟩ := evalRequires_front_pass E fuel inv ctx
    { invariantID := inv.id, violated := false,
      affectedResource := ctx.resource.ns ++ "/" ++ ctx.resource.name,
      detectedAt := ctx.timestamp, severity := inv.severity }
    pre hpre (req :: rest) log
  refine ⟨{ invariantID := inv.id, violated := true,
            reason := "Dependency " ++ reqInv.id ++ " failed: " ++ r,
            responsibleActor := "", eliminatedActors := [],
            affectedResource := ctx.resource.ns ++ "/" ++ ctx.resource.name,
            detectedAt := ctx.timestamp, severity := inv.severity },
          logEvaluation log2 inv.id ctx.resource.uid false
            ("Dependency " ++ reqInv.id ++ " failed: " ++ r), ?_, rfl, rfl, rfl⟩
  rw [evaluateWithContext_to_evalRequires E fuel inv ctx log hpred, hreqs, hfront]
  conv_lhs => unfold evalRequiresCore
  rw [hreg]
  simp only []
  rw [hdepAll log2]

/-- C10 witness: `pod_ready` (predicate satisfied) reaches its SECOND
requirement — the `node`-relation edge to the registered `node_ready` —
after its first, passing `containers_running` requirement, and surfaces
a violation with empty actor attribution. -/
theorem c10_dependency_violation_empty_actors_witness :
    defaultEngine.invariants.lookup "node_ready" = some nodeReadyInv
      ∧ podReadyInv.requires
          = [ { invariant := "containers_running", scope := { relation := Same } } ]
            ++ { invariant := "node_ready", scope := { relation := Node } } :: []
      ∧ (∃ v log2, evaluateWithContext defaultEngine 4 podReadyInv
            (ctxOf podNodeDepSubject) [] = .ok (some v, log2)
          ∧ v.violated = true ∧ v.responsibleActor = "" ∧ v.eliminatedActors = []) :=
  ⟨rfl, rfl,
   (c10_dependency_violation_empty_actors defaultEngine 3
      { invariant := "node_ready", scope := { relation := Node } } nodeReadyInv
      (ctxOf podNodeDepSubject) [] podReadyInv
      [ { invariant := "containers_running", scope := { relation := Same } } ] []
      rfl (by decide) rfl
      (by
        intro q hq
        rw [List.mem_singleton] at hq
        subst hq
        exact Or.inr (fun l => ⟨_, rfl⟩))
      (Or.inr ⟨{ field := "status.conditions[Ready].status", operator := Equals,
                 value := .vstr "True" }, "", rfl, rfl⟩)).2⟩

/- # C6: elimination -/

theorem contains_iff_mem_str {a : String} {l : List String} :
    l.contains a = true ↔ a ∈ l := List.elem_iff

theorem mem_eliminateActors (cam : ControllerAuthorityMap)
    (ordAuth ordAll : List (String × List String)) (field primary a : String) :
    a ∈ eliminateActors cam ordAuth ordAll field primary
      ↔ a ∈ GetAllControllers ordAll ∧ a ≠ primary
          ∧ a ∉ GetAuthorizedControllers cam ordAuth field := by
  unfold eliminateActors
  rw [List.mem_filter]
  constructor
  · rintro ⟨hmem, hcond⟩
    simp only [Bool.and_eq_true, bne_iff_ne, Bool.not_eq_true', ne_eq] at hcond
    refine ⟨hmem, hcond.1, ?_⟩
    intro hin
    have := contains_iff_mem_str.mpr hin
    rw [hcond.2] at this
    cases this
  · rintro ⟨hmem, hne, hnot⟩
    refine ⟨hmem, ?_⟩
    simp only [Bool.and_eq_true, bne_iff_ne, Bool.not_eq_true', ne_eq]
    refine ⟨hne, ?_⟩
    cases hc : (GetAuthorizedControllers cam ordAuth field).contains a with
    | false => rfl
    | true => exact absurd (contains_iff_mem_str.mp hc) hnot

theorem respNotElim_eliminateActors (cam : ControllerAuthorityMap)
    (ordAuth ordAll : List (String × List String)) (field primary : String) :
    primary ∉ eliminateActors cam ordAuth ordAll field primary := by
  intro hmem
  exact ((mem_eliminateActors cam ordAuth ordAll field primary primary).mp hmem).2.1 rfl

theorem respNotElim_evalRequiresCore (registry : List (String × Invariant))
    (dep : Requirement → List EvaluationLogEntry →
      Except Abn (Option ViolationResult × List EvaluationLogEntry))
    (inv : Invariant) (ctx : EvaluationContext) (r0 : ViolationResult)
    (hdep : ∀ req l dv l', dep req l = .ok (some dv, l') →
      dv.responsibleActor ∉ dv.eliminatedActors) :
    ∀ (reqs : List Requirement) (log : List EvaluationLogEntry)
      (v : ViolationResult) (log' : List EvaluationLogEntry),
      evalRequiresCore registry dep inv ctx r0 reqs log = .ok (some v, log') →
      v.responsibleActor ∉ v.eliminatedActors := by
  intro reqs
  induction reqs with
  | nil =>
    intro log v log' h
    simp [evalRequiresCore] at h
  | cons req rest ih =>
    intro log v log' h
    conv at h => lhs; unfold evalRequiresCore
    split at h
    · exact ih _ _ _ h
    · split at h
      · simp at h
      · exact ih _ _ _ h
      · rename_i reqInv hl dv2 log2 hd
        simp only [Except.ok.injEq, Prod.mk.injEq, Option.some.injEq] at h
        obtain ⟨hv, _⟩ := h
        subst hv
        exact hdep req log dv2 log2 hd

theorem respNotElim_evaluateDependencyCore (registry : List (String × Invariant))
    (child : Invariant → List EvaluationLogEntry →
      Except Abn (Option ViolationResult × List EvaluationLogEntry))
    (hchild : ∀ i l v l', child i l = .ok (some v, l') →
      v.responsibleActor ∉ v.eliminatedActors) :
    ∀ req log dv log', evaluateDependencyCore child registry req log = .ok (some dv, log') →
      dv.responsibleActor ∉ dv.eliminatedActors := by
  intro req log dv log' h
  conv at h => lhs; unfold evaluateDependencyCore
  split at h
  · simp only [Except.ok.injEq, Prod.mk.injEq, Option.some.injEq] at h
    obtain ⟨hv, _⟩ := h
    subst hv
    simp
  · split at h
    · exact hchild _ _ _ _ h
    · split at h
      · simp only [Except.ok.injEq, Prod.mk.injEq, Option.some.injEq] at h
        obtain ⟨hv, _⟩ := h
        subst hv
        simp
      · simp only [Except.ok.injEq, Prod.mk.injEq, Option.some.injEq] at h
        obtain ⟨hv, _⟩ := h
        subst hv
        simp

theorem respNotElim_evaluateWithContext :
    ∀ (fuel : Nat) (E : EvaluationEngine) (inv : Invariant) (ctx : EvaluationContext)
      (log : List EvaluationLogEntry) (v : ViolationResult)
      (log' : List EvaluationLogEntry),
      evaluateWithContext E fuel inv ctx log = .ok (some v, log') →
      v.responsibleActor ∉ v.eliminatedActors := by
  intro fuel
  induction fuel with
  | zero =>
    intro E inv ctx log v log' h
    simp [evaluateWithContext] at h
  | succ n ih =>
    intro E inv ctx log v log' h
    have hreq := fun (r0 : ViolationResult) =>
      respNotElim_evalRequiresCore E.invariants
        (fun req l => evaluateDependencyCore
          (fun i l' => evaluateWithContext E n i ctx l') E.invariants req l)
        inv ctx r0
        (fun req l dv l' hh =>
          respNotElim_evaluateDependencyCore E.invariants
            (fun i l' => evaluateWithContext E n i ctx l')
            (fun i l v' l'' hh' => ih E i ctx l v' l'' hh') req l dv l' hh)
    simp only [evaluateWithContext] at h
    split at h
    · exact hreq _ _ _ _ _ h
    · rename_i pred hpredeq
      split at h
      · simp at h
      · rename_i sat reason heq
        split at h
        · exact hreq _ _ _ _ _ h
        · simp only [Except.ok.injEq, Prod.mk.injEq, Option.some.injEq] at h
          obtain ⟨hv, _⟩ := h
          subst hv
          exact respNotElim_eliminateActors E.authorityMap E.ord E.ord pred.field
            (determineResponsibility E.authorityMap E.ord inv)

/-- C6 (corrected): for a violation produced by the invariant's OWN
predicate failing on field `f`, the eliminated set is exactly
`{c in all_controllers : c ≠ responsible ∧ c ∉ authorized_controllers(f)}`
(third conjunct), and for EVERY violation — including those inherited
from dependency evaluation, whose actors were computed for the CHILD's
predicate field — the responsible actor is never eliminated (last
conjunct).  The claim's `no eliminated actor is authorized for f` fails
for dependency-inherited violations (see the counterexample). -/
theorem c6_elimination_characterisation (E : EvaluationEngine) (fuel : Nat)
    (inv : Invariant) (ctx : EvaluationContext) (log : List EvaluationLogEntry)
    (pred : Predicate) (reason : String)
    (hpred : inv.predicate = some pred)
    (heval : evaluatePredicateWithReason pred ctx.resource = .ok (false, reason)) :
    evaluateWithContext E (fuel + 1) inv ctx log
        = .ok (some { invariantID := inv.id, violated := true, reason := reason
                      responsibleActor := determineResponsibility E.authorityMap E.ord inv
                      eliminatedActors := eliminateActors E.authorityMap E.ord E.ord
                        pred.field (determineResponsibility E.authorityMap E.ord inv)
                      affectedResource := ctx.resource.ns ++ "/" ++ ctx.resource.name
                      detectedAt := ctx.timestamp, severity := inv.severity },
               logEvaluation log inv.id ctx.resource.uid false reason)
      ∧ (∀ a, a ∈ eliminateActors E.authorityMap E.ord E.ord pred.field
              (determineResponsibility E.authorityMap E.ord inv)
          ↔ a ∈ GetAllControllers E.ord
              ∧ a ≠ determineResponsibility E.authorityMap E.ord inv
              ∧ a ∉ GetAuthorizedControllers E.authorityMap E.ord pred.field)
      ∧ (∀ (fuel' : Nat) (inv' : Invariant) (ctx' : EvaluationContext)
            (l : List EvaluationLogEntry) (v : ViolationResult)
            (l' : List EvaluationLogEntry),
          evaluateWithContext E fuel' inv' ctx' l = .ok (some v, l') →
          v.responsibleActor ∉ v.eliminatedActors) := by
  refine ⟨?_, ?_, ?_⟩
  · simp only [evaluateWithContext, hpred, heval, Bool.false_eq_true, if_false]
  · intro a
    exact mem_eliminateActors E.authorityMap E.ord E.ord pred.field
      (determineResponsibility E.authorityMap E.ord inv) a
  · intro fuel' inv' ctx' l v l' h
    exact respNotElim_evaluateWithContext fuel' E inv' ctx' l v l' h

set_option maxRecDepth 16384 in
/-- C6 counterexample: evaluating `pod_ready` on a pod whose readiness
condition holds but whose containers are not all running yields a
violation inherited from `containers_running` whose eliminated set
contains `node-controller`, even though `node-controller` IS authorized
for `pod_ready`'s own predicate field `status.conditions[Ready].status`
(and differs from the responsible actor), so the claimed set equality
and the `no eliminated actor is authorized for f` corollary fail. -/
theorem c6_elimination_counterexample :
    podReadyInv.predicate
        = some { field := "status.conditions[Ready].status", operator := Equals,
                 value := .vstr "True" }
      ∧ evaluateWithContext defaultEngine 5 podReadyInv (ctxOf podDepFailSubject) []
          = .ok (some { invariantID := "pod_ready", violated := true,
                        reason := "Dependency containers_running failed: Field status.containerStatuses[*].state.running has non-truthy element: false",
                        responsibleActor := "kubelet",
                        eliminatedActors := ["pv-controller", "pvc-protection-controller",
                          "node-controller", "kube-scheduler", "deployment-controller",
                          "replicaset-controller", "statefulset-controller",
                          "service-controller", "cloud-controller-manager",
                          "endpoint-controller", "endpointslice-controller",
                          "garbage-collector"],
                        affectedResource := "default/test-pod", detectedAt := 0,
                        severity := "critical" },
               [ { invariantID := "containers_running", resourceUID := "pod-1",
                   result := false,
                   reason := "Field status.containerStatuses[*].state.running has non-truthy element: false" }
               , { invariantID := "pod_ready", resourceUID := "pod-1",
                   result := false,
                   reason := "Dependency containers_running failed: Field status.containerStatuses[*].state.running has non-truthy element: false" } ])
      ∧ "node-controller" ∈ (["pv-controller", "pvc-protection-controller",
            "node-controller", "kube-scheduler", "deployment-controller",
            "replicaset-controller", "statefulset-controller", "service-controller",
            "cloud-controller-manager", "endpoint-controller",
            "endpointslice-controller", "garbage-collector"] : List String)
      ∧ "node-controller" ∈ GetAuthorizedControllers NewControllerAuthorityMap
            NewControllerAuthorityMap.mappings "status.conditions[Ready].status"
      ∧ "node-controller" ≠ "kubelet" :=
  ⟨rfl, rfl, by decide, by decide, by decide⟩

/-- C6 witness: the predicate-failure characterisation applied to
`node_ready` on a node whose readiness condition is false. -/
theorem c6_elimination_witness :
    nodeReadyInv.predicate
        = some { field := "status.conditions[Ready].status", operator := Equals,
                 value := .vstr "True" }
      ∧ evaluateWithContext defaultEngine 3 nodeReadyInv (ctxOf nodeFailSubject) []
          = .ok (some { invariantID := nodeReadyInv.id, violated := true,
                        reason := "Field status.conditions[Ready].status is \x27False\x27 (expected: True)",
                        responsibleActor := determineResponsibility defaultEngine.authorityMap
                          defaultEngine.ord nodeReadyInv,
                        eliminatedActors := eliminateActors defaultEngine.authorityMap
                          defaultEngine.ord defaultEngine.ord "status.conditions[Ready].status"
                          (determineResponsibility defaultEngine.authorityMap
                            defaultEngine.ord nodeReadyInv),
                        affectedResource := "/n1", detectedAt := 0,
                        severity := nodeReadyInv.severity },
               logEvaluation [] nodeReadyInv.id "node-1" false
                 "Field status.conditions[Ready].status is \x27False\x27 (expected: True)") :=
  ⟨rfl,
   (c6_elimination_characterisation defaultEngine 2 nodeReadyInv
      (ctxOf nodeFailSubject) []
      { field := "status.conditions[Ready].status", operator := Equals,
        value := .vstr "True" }
      "Field status.conditions[Ready].status is \x27False\x27 (expected: True)"
      rfl rfl).1⟩

/- # C8: the bounded evaluation log -/

theorem lastN_of_length_le {α : Type} (n : Nat) (l : List α) (h : l.length ≤ n) :
    lastN n l = l := by
  unfold lastN
  rw [Nat.sub_eq_zero_of_le h, List.drop_zero]

theorem lastN_cons_of_le {α : Type} (n : Nat) (x : α) (l : List α) (h : n ≤ l.length) :
    lastN n (x :: l) = lastN n l := by
  unfold lastN
  have hl : (x :: l).length - n = (l.length - n) + 1 := by
    simp only [List.length_cons]
    omega
  rw [hl, List.drop_succ_cons]

theorem lastN_append_lastN {α : Type} (n : Nat) :
    ∀ l b : List α, lastN n (lastN n l ++ b) = lastN n (l ++ b) := by
  intro l
  induction l with
  | nil =>
    intro b
    rw [lastN_of_length_le n [] (by simp)]
  | cons x l ih =>
    intro b
    by_cases h : n ≤ l.length
    · rw [lastN_cons_of_le n x l h, ih, List.cons_append,
        lastN_cons_of_le n x (l ++ b) (le_trans h (by simp))]
    · rw [lastN_of_length_le n (x :: l) (by simp; omega)]

theorem lastN_length {α : Type} (n : Nat) (l : List α) :
    (lastN n l).length = l.length - (l.length - n) := by
  unfold lastN
  rw [List.length_drop]

theorem logEvaluation_eq_lastN (log : List EvaluationLogEntry)
    (invID uid : String) (res : Bool) (reason : String) :
    logEvaluation log invID uid res reason
      = lastN 1000 (log ++ [{ invariantID := invID, resourceUID := uid,
                              result := res, reason := reason }]) := by
  unfold logEvaluation lastN
  dsimp only
  split
  · rfl
  · rename_i h
    rw [Nat.sub_eq_zero_of_le (by omega), List.drop_zero]

theorem logEvaluation_lastN_comm (gl : List EvaluationLogEntry)
    (invID uid : String) (res : Bool) (reason : String) :
    logEvaluation (lastN 1000 gl) invID uid res reason
      = lastN 1000 (logAppend gl invID uid res reason) := by
  rw [logEvaluation_eq_lastN, lastN_append_lastN]
  rfl

theorem ghostAppend_evaluateDependencyCore (registry : List (String × Invariant))
    (child : Invariant → List EvaluationLogEntry →
      Except Abn (Option ViolationResult × List EvaluationLogEntry))
    (hchild : ∀ i l r l', child i l = .ok (r, l') → ∃ d, d ≠ [] ∧ l' = l ++ d) :
    ∀ req log r log', evaluateDependencyCore child registry req log = .ok (r, log') →
      (∃ d, d ≠ [] ∧ log' = log ++ d) ∨ log' = log := by
  intro req log r log' h
  conv at h => lhs; unfold evaluateDependencyCore
  split at h
  · right
    simp only [Except.ok.injEq, Prod.mk.injEq] at h
    exact h.2.symm
  · split at h
    · left
      exact hchild _ _ _ _ h
    · split at h
      · right
        simp only [Except.ok.injEq, Prod.mk.injEq] at h
        exact h.2.symm
      · right
        simp only [Except.ok.injEq, Prod.mk.injEq] at h
        exact h.2.symm

theorem ghostAppend_evalRequiresCoreGhost (registry : List (String × Invariant))
    (dep : Requirement → List EvaluationLogEntry →
      Except Abn (Option ViolationResult × List EvaluationLogEntry))
    (inv : Invariant) (ctx : EvaluationContext) (r0 : ViolationResult)
    (hdep : ∀ req l r l', dep req l = .ok (r, l') →
      (∃ d, d ≠ [] ∧ l' = l ++ d) ∨ l' = l) :
    ∀ reqs log r log',
      evalRequiresCoreGhost registry dep inv ctx r0 reqs log = .ok (r, log') →
      ∃ new, new ≠ [] ∧ log' = log ++ new := by
  intro reqs
  induction reqs with
  | nil =>
    intro log r log' h
    conv at h => lhs; unfold evalRequiresCoreGhost
    simp only [Except.ok.injEq, Prod.mk.injEq] at h
    exact ⟨[{ invariantID := inv.id, resourceUID := ctx.resource.uid,
              result := true, reason := "satisfied" }], by simp, h.2.symm⟩
  | cons req rest ih =>
    intro log r log' h
    conv at h => lhs; unfold evalRequiresCoreGhost
    split at h
    · exact ih _ _ _ h
    · split at h
      · simp at h
      · rename_i reqInv hlook log2 hd
        obtain ⟨new, hne, hnew⟩ := ih _ _ _ h
        rcases hdep req log _ _ hd with ⟨d, hdne, hd2⟩ | hd2
        · exact ⟨d ++ new, by simp [hdne], by rw [hnew, hd2, List.append_assoc]⟩
        · exact ⟨new, hne, by rw [hnew, hd2]⟩
      · rename_i hx reqInv hlook hscrut dv log2 hd
        simp only [Except.ok.injEq, Prod.mk.injEq] at h
        rcases hdep req log _ _ hd with ⟨d, hdne, hd2⟩ | hd2
        · refine ⟨d ++ [{ invariantID := inv.id
                          resourceUID := ctx.resource.uid
                          result := false
                          reason := "Dependency " ++ reqInv.id ++ " failed: " ++ dv.reason }],
            by simp, ?_⟩
          rw [← h.2, hd2]
          simp only [logAppend]
          rw [List.append_assoc]
        · refine ⟨[{ invariantID := inv.id
                     resourceUID := ctx.resource.uid
                     result := false
                     reason := "Dependency " ++ reqInv.id ++ " failed: " ++ dv.reason }],
            by simp, ?_⟩
          rw [← h.2, hd2]
          simp only [logAppend]

theorem ghostAppend_evaluateWithContextGhost :
    ∀ (fuel : Nat) (E : EvaluationEngine) (inv : Invariant) (ctx : EvaluationContext)
      (log : List EvaluationLogEntry) (r : Option ViolationResult)
      (log' : List EvaluationLogEntry),
      evaluateWithContextGhost E fuel inv ctx log = .ok (r, log') →
      ∃ new, new ≠ [] ∧ log' = log ++ new := by
  intro fuel
  induction fuel with
  | zero =>
    intro E inv ctx log r log' h
    simp [evaluateWithContextGhost] at h
  | succ n ih =>
    intro E inv ctx log r log' h
    have hdep := ghostAppend_evaluateDependencyCore E.invariants
      (fun i l' => evaluateWithContextGhost E n i ctx l')
      (fun i l r' l' hh => ih E i ctx l r' l' hh)
    have hreq := fun (r0 : ViolationResult) =>
      ghostAppend_evalRequiresCoreGhost E.invariants
        (fun req l => evaluateDependencyCore
          (fun i l' => evaluateWithContextGhost E n i ctx l') E.invariants req l)
        inv ctx r0
        (fun req l r' l' hh => hdep req l r' l' hh)
    simp only [evaluateWithContextGhost] at h
    split at h
    · exact hreq _ _ _ _ _ h
    · split at h
      · simp at h
      · rename_i sat reason heq
        split at h
        · exact hreq _ _ _ _ _ h
        · simp only [Except.ok.injEq, Prod.mk.injEq] at h
          exact ⟨[{ invariantID := inv.id, resourceUID := ctx.resource.uid,
                    result := false, reason := reason }], by simp, h.2.symm⟩

theorem ghostAppend_runEvaluationsGhost (E : EvaluationEngine) (fuel : Nat) :
    ∀ (jobs : List (Invariant × EvaluationContext)) (log log' : List EvaluationLogEntry),
      runEvaluationsGhost E fuel jobs log = .ok log' →
      ∃ new : List EvaluationLogEntry,
        jobs.length ≤ new.length ∧ log' = log ++ new := by
  intro jobs
  induction jobs with
  | nil =>
    intro log log' h
    conv at h => lhs; unfold runEvaluationsGhost
    simp only [Except.ok.injEq] at h
    refine ⟨[], by simp, ?_⟩
    rw [← h, List.append_nil]
  | cons job rest ih =>
    intro log log' h
    obtain ⟨inv, ctx⟩ := job
    conv at h => lhs; unfold runEvaluationsGhost
    split at h
    · simp at h
    · rename_i res log2 heval
      obtain ⟨d, hdne, hd⟩ :=
        ghostAppend_evaluateWithContextGhost fuel E inv ctx log res log2 heval
      obtain ⟨new, hlen, hnew⟩ := ih log2 log' h
      refine ⟨d ++ new, ?_, ?_⟩
      · simp only [List.length_cons, List.length_append]
        have : 0 < d.length := List.length_pos.mpr hdne
        omega
      · rw [hnew, hd, List.append_assoc]

theorem ghost_sim_evalRequiresCore (registry : List (String × Invariant))
    (depR depG : Requirement → List EvaluationLogEntry →
      Except Abn (Option ViolationResult × List EvaluationLogEntry))
    (inv : Invariant) (ctx : EvaluationContext) (r0 : ViolationResult)
    (hdep : ∀ req gl, depR req (lastN 1000 gl)
      = (depG req gl).map (fun p => (p.1, lastN 1000 p.2))) :
    ∀ (reqs : List Requirement) (gl : List EvaluationLogEntry),
      evalRequiresCore registry depR inv ctx r0 reqs (lastN 1000 gl)
        = (evalRequiresCoreGhost registry depG inv ctx r0 reqs gl).map
            (fun p => (p.1, lastN 1000 p.2)) := by
  intro reqs
  induction reqs with
  | nil =>
    intro gl
    simp only [evalRequiresCore, evalRequiresCoreGhost, Except.map]
    rw [logEvaluation_lastN_comm]
  | cons req rest ih =>
    intro gl
    cases hlook : registry.lookup req.invariant with
    | none =>
      simp only [evalRequiresCore, evalRequiresCoreGhost, hlook]
      exact ih gl
    | some reqInv =>
      cases hd : depG req gl with
      | error a =>
        have hR : depR req (lastN 1000 gl) = .error a := by
          rw [hdep req gl, hd]
          rfl
        simp only [evalRequiresCore, evalRequiresCoreGhost, hlook, hR, hd, Except.map]
      | ok p =>
        obtain ⟨rv, gl2⟩ := p
        have hR : depR req (lastN 1000 gl) = .ok (rv, lastN 1000 gl2) := by
          rw [hdep req gl, hd]
          rfl
        cases rv with
        | none =>
          simp only [evalRequiresCore, evalRequiresCoreGhost, hlook, hR, hd]
          exact ih gl2
        | some dv =>
          simp only [evalRequiresCore, evalRequiresCoreGhost, hlook, hR, hd, Except.map]
          rw [logEvaluation_lastN_comm]

theorem ghost_sim_evaluateWithContext (E : EvaluationEngine) :
    ∀ (fuel : Nat) (inv : Invariant) (ctx : EvaluationContext)
      (gl : List EvaluationLogEntry),
      evaluateWithContext E fuel inv ctx (lastN 1000 gl)
        = (evaluateWithContextGhost E fuel inv ctx gl).map
            (fun p => (p.1, lastN 1000 p.2)) := by
  intro fuel
  induction fuel with
  | zero =>
    intro inv ctx gl
    rfl
  | succ n ih =>
    intro inv ctx gl
    have hdep : ∀ (req : Requirement) (gl2 : List EvaluationLogEntry),
        evaluateDependencyCore (fun i l => evaluateWithContext E n i ctx l)
            E.invariants req (lastN 1000 gl2)
          = (evaluateDependencyCore (fun i l => evaluateWithContextGhost E n i ctx l)
                E.invariants req gl2).map
              (fun p => (p.1, lastN 1000 p.2)) := by
      intro req gl2
      unfold evaluateDependencyCore
      cases hlook : E.invariants.lookup req.invariant with
      | none => simp only [hlook, Except.map]
      | some reqInv =>
        simp only [hlook]
        cases hsame : (req.scope.relation == Same) with
        | true =>
          simp only [hsame, eq_self_iff_true, if_true]
          exact ih reqInv ctx gl2
        | false =>
          simp only [hsame, Bool.false_eq_true, if_false]
          cases hrel : (req.scope.relation == Owner || req.scope.relation == Node
              || req.scope.relation == Selector) with
          | true => simp only [hrel, eq_self_iff_true, if_true, Except.map]
          | false => simp only [hrel, Bool.false_eq_true, if_false, Except.map]
    cases hpred : inv.predicate with
    | none =>
      simp only [evaluateWithContext, evaluateWithContextGhost, hpred]
      exact ghost_sim_evalRequiresCore E.invariants
        (fun req l =>
          evaluateDependencyCore (fun i l' => evaluateWithContext E n i ctx l')
            E.invariants req l)
        (fun req l =>
          evaluateDependencyCore (fun i l' => evaluateWithContextGhost E n i ctx l')
            E.invariants req l)
        inv ctx _ hdep inv.requires gl
    | some pred =>
      cases heval : evaluatePredicateWithReason pred ctx.resource with
      | error a =>
        simp only [evaluateWithContext, evaluateWithContextGhost, hpred, heval,
          Except.map]
      | ok sr =>
        obtain ⟨sat, reason⟩ := sr
        cases sat with
        | true =>
          simp only [evaluateWithContext, evaluateWithContextGhost, hpred, heval,
            eq_self_iff_true, if_true]
          exact ghost_sim_evalRequiresCore E.invariants
            (fun req l =>
              evaluateDependencyCore (fun i l' => evaluateWithContext E n i ctx l')
                E.invariants req l)
            (fun req l =>
              evaluateDependencyCore (fun i l' => evaluateWithContextGhost E n i ctx l')
                E.invariants req l)
            inv ctx _ hdep inv.requires gl
        | false =>
          simp only [evaluateWithContext, evaluateWithContextGhost, hpred, heval,
            Bool.false_eq_true, if_false, Except.map]
          rw [logEvaluation_lastN_comm]

theorem ghost_sim_runEvaluations (E : EvaluationEngine) (fuel : Nat) :
    ∀ (jobs : List (Invariant × EvaluationContext)) (gl : List EvaluationLogEntry),
      runEvaluations E fuel jobs (lastN 1000 gl)
        = (runEvaluationsGhost E fuel jobs gl).map (lastN 1000) := by
  intro jobs
  induction jobs with
  | nil =>
    intro gl
    rfl
  | cons job rest ih =>
    intro gl
    obtain ⟨inv, ctx⟩ := job
    unfold runEvaluations runEvaluationsGhost
    cases hg : evaluateWithContextGhost E fuel inv ctx gl with
    | error a =>
      have hR : evaluateWithContext E fuel inv ctx (lastN 1000 gl) = .error a := by
        rw [ghost_sim_evaluateWithContext E fuel inv ctx gl, hg]
        rfl
      simp only [hg, hR, Except.map]
    | ok p =>
      obtain ⟨rv, gl2⟩ := p
      have hR : evaluateWithContext E fuel inv ctx (lastN 1000 gl)
          = .ok (rv, lastN 1000 gl2) := by
        rw [ghost_sim_evaluateWithContext E fuel inv ctx gl, hg]
        rfl
      simp only [hg, hR]
      exact ih gl2

/-- C8 (confirmed): `logEvaluation` appends one entry after every
single-subject evaluation and keeps only the last 1000 entries.  After
any run of N ≥ 1000 evaluations from an empty log the engine's log is
EXACTLY the last 1000 entries of the run's full append history `hist` —
the untruncated log of the SAME run, computed deterministically by
`runEvaluationsGhost` (the engine with the eviction removed), which has
at least one new entry per evaluation and hence at least N entries; every
older entry has been evicted, oldest first. -/
theorem c8_log_bound (E : EvaluationEngine) (fuel : Nat)
    (jobs : List (Invariant × EvaluationContext)) (log' : List EvaluationLogEntry)
    (hrun : runEvaluations E fuel jobs [] = .ok log')
    (hN : 1000 ≤ jobs.length) :
    ∃ hist : List EvaluationLogEntry,
      runEvaluationsGhost E fuel jobs [] = .ok hist
        ∧ log' = lastN 1000 hist
        ∧ jobs.length ≤ hist.length
        ∧ log'.length = 1000
        ∧ (∀ (inv : Invariant) (ctx : EvaluationContext)
            (gl : List EvaluationLogEntry) (r : Option ViolationResult)
            (gl' : List EvaluationLogEntry),
            evaluateWithContextGhost E fuel inv ctx gl = .ok (r, gl') →
              ∃ d, d ≠ [] ∧ gl' = gl ++ d) := by
  have h0 : lastN 1000 ([] : List EvaluationLogEntry) = [] := rfl
  have hsim := ghost_sim_runEvaluations E fuel jobs []
  rw [h0, hrun] at hsim
  cases hg : runEvaluationsGhost E fuel jobs [] with
  | error a =>
    rw [hg] at hsim
    simp only [Except.map] at hsim
    exact Except.noConfusion hsim
  | ok hist =>
    rw [hg] at hsim
    simp only [Except.map, Except.ok.injEq] at hsim
    obtain ⟨new, hlen, hnew⟩ := ghostAppend_runEvaluationsGhost E fuel jobs [] hist hg
    rw [List.nil_append] at hnew
    refine ⟨hist, rfl, hsim, ?_, ?_,
      fun inv ctx gl r gl' hh =>
        ghostAppend_evaluateWithContextGhost fuel E inv ctx gl r gl' hh⟩
    · rw [hnew]
      exact hlen
    · rw [hsim, lastN_length, hnew]
      omega

theorem runEvaluations_replicate_ok :
    ∀ (k : Nat) (log : List EvaluationLogEntry),
      ∃ log', runEvaluations emptyEngine 1
          (List.replicate k (trivialInv, trivialCtx)) log = .ok log' := by
  intro k
  induction k with
  | zero => intro log; exact ⟨log, rfl⟩
  | succ n ih =>
    intro log
    obtain ⟨log', h⟩ := ih (logEvaluation log "noop" "u0" true "satisfied")
    refine ⟨log', ?_⟩
    rw [List.replicate_succ]
    conv_lhs => unfold runEvaluations
    rw [show evaluateWithContext emptyEngine 1 trivialInv trivialCtx log
          = .ok (none, logEvaluation log "noop" "u0" true "satisfied") from rfl]
    exact h

/-- C8 witness: a run of one thousand single-subject evaluations of a
trivial invariant succeeds; its untruncated history has at least 1000
entries and the engine's final log is exactly the last 1000 of them. -/
theorem c8_log_bound_witness :
    1000 ≤ (List.replicate 1000 (trivialInv, trivialCtx)).length
      ∧ ∃ log', runEvaluations emptyEngine 1
            (List.replicate 1000 (trivialInv, trivialCtx)) [] = .ok log'
          ∧ ∃ hist, runEvaluationsGhost emptyEngine 1
                (List.replicate 1000 (trivialInv, trivialCtx)) [] = .ok hist
              ∧ log' = lastN 1000 hist ∧ 1000 ≤ hist.length
              ∧ log'.length = 1000 := by
  obtain ⟨log', hrun⟩ := runEvaluations_replicate_ok 1000 []
  have hlen : 1000 ≤ (List.replicate 1000 (trivialInv, trivialCtx)).length := by
    rw [List.length_replicate]
  obtain ⟨hist, hg, hlast, hhlen, hlog, _⟩ :=
    c8_log_bound emptyEngine 1 (List.replicate 1000 (trivialInv, trivialCtx))
      log' hrun hlen
  exact ⟨hlen, log', hrun, hist, hg, hlast, le_trans hlen hhlen, hlog⟩

/- # C9: authority registration replaces -/

/-- C9 (confirmed): `addAuthority` on an existing field path replaces the
earlier actor set entirely, so in the default map the exact-key lookups
for `status.phase` and `status.conditions` return only the LAST
registered actor sets, for every map iteration order. -/
theorem c9_addAuthority_replaces :
    (∀ (cam : ControllerAuthorityMap) (f : String) (cs : List String),
      ((cam.addAuthority f cs).mappings).lookup f = some cs)
    ∧ (∀ ord : List (String × List String),
        GetAuthorizedControllers NewControllerAuthorityMap ord "status.phase"
          = ["pv-controller", "pvc-protection-controller"])
    ∧ (∀ ord : List (String × List String),
        GetAuthorizedControllers NewControllerAuthorityMap ord "status.conditions"
          = ["node-controller", "kubelet"]) := by
  refine ⟨fun cam f cs => lookup_mapUpdate_self cam.mappings f cs, fun ord => rfl, fun ord => rfl⟩

end Akari
